import Mathlib

/-
Verification of the orchestration core of mobilys-otp-ecs
(src/app/ecs_control.py and src/app/main.py) via a shallow embedding.

Modelling conventions:
  * Python dicts are embedded as association lists (`List (String × String)`)
    with the update / lookup operations of CPython dicts (insertion order is
    preserved, updating an existing key keeps its position, new keys are
    appended).  `dictOfList` normalises an arbitrary entry list exactly the
    way the `dict(...)` constructor does (later duplicates win).
  * Remote AWS calls are embedded as pure transitions on an explicit
    `WorldState`; quantities that change asynchronously on the AWS side
    (running counts, stopped-task listings, log pages, transient failures)
    enter the model as observation oracles that the theorems quantify over.
  * Machine floats of the source (timestamps, backoff delays) are modelled
    as rationals; the properties at stake are order/interval facts that do
    not depend on rounding.
-/

namespace MobilysOtp

/- ===================================================================
   Python dict model (used by the env overlay of ensure_router_service,
   ecs_control.py lines 359-369, and the idle-reaper tracking map,
   main.py lines 46 and 363-383).
   =================================================================== -/

/-- Lookup in a Python dict: the value of the unique entry with this key. -/
def dictGet (d : List (String × String)) (k : String) : Option String :=
  (d.find? (fun p => p.1 == k)).map Prod.snd

/-- Key-membership test (`k in d`). -/
def dictHasKey (d : List (String × String)) (k : String) : Bool :=
  d.any (fun p => p.1 == k)

/-- Assignment `d[k] = v`: update in place when the key exists, append otherwise. -/
def dictSet (d : List (String × String)) (k v : String) : List (String × String) :=
  if dictHasKey d k then
    d.map (fun p => if p.1 == k then (k, v) else p)
  else d ++ [(k, v)]

/-- Python `d.setdefault(k, v)`: insert only when the key is absent. -/
def dictSetdefault (d : List (String × String)) (k v : String) : List (String × String) :=
  if dictHasKey d k then d else d ++ [(k, v)]

/-- Python `dict(pairs)`: build a dict from entries, later duplicates win. -/
def dictOfList (l : List (String × String)) : List (String × String) :=
  l.foldl (fun d p => dictSet d p.1 p.2) []

/-- Python `{**a, **b}`: start from `a` and write every entry of `b` over it. -/
def dictMerge (a b : List (String × String)) : List (String × String) :=
  b.foldl (fun d p => dictSet d p.1 p.2) a

/-- Well-formedness of a dict value: keys occur at most once. -/
def dictKeysNodup (d : List (String × String)) : Prop :=
  (d.map Prod.fst).Nodup

/-- Python truthiness of an optional string (`if x:`). -/
def pyTruthyStr : Option String → Bool
  | none => false
  | some s => !(s == "")

/- ===================================================================
   Environment overlay of ensure_router_service
   (ecs_control.py lines 359-369).
   =================================================================== -/

/-- Line 361-362: `add_env = dict(env or {})` then
    `add_env["GRAPH_SCENARIO_ID"] = scenario_id`. -/
def envAddScenario (env : Option (List (String × String))) (scenarioId : String) :
    List (String × String) :=
  dictSet (dictOfList (env.getD [])) "GRAPH_SCENARIO_ID" scenarioId

/-- Lines 363-364: `if graphs_bucket: add_env["GRAPHS_BUCKET"] = graphs_bucket`. -/
def envAddBucket (d : List (String × String)) (graphsBucket : Option String) :
    List (String × String) :=
  if pyTruthyStr graphsBucket then dictSet d "GRAPHS_BUCKET" (graphsBucket.getD "") else d

/-- Lines 365-366: `if graph_prefix: add_env["GRAPH_PREFIX"] = graph_prefix`. -/
def envAddPfx (d : List (String × String)) (graphPfx : String) :
    List (String × String) :=
  if graphPfx == "" then d else dictSet d "GRAPH_PREFIX" graphPfx

/-- Line 367: `add_env.setdefault("AWS_REGION", region)`. -/
def envAddRegion (d : List (String × String)) (region : String) :
    List (String × String) :=
  dictSetdefault d "AWS_REGION" region

/-- Lines 360-368: base env read off the container definition, the caller
    overlay built up by the four steps above, and the final merge
    `merged = {**base_env, **add_env}`. -/
def mergedEnv (baseEnvList : List (String × String)) (env : Option (List (String × String)))
    (scenarioId region : String) (graphsBucket : Option String) (graphPfx : String) :
    List (String × String) :=
  dictMerge (dictOfList baseEnvList)
    (envAddRegion (envAddPfx (envAddBucket (envAddScenario env scenarioId) graphsBucket) graphPfx)
      region)

/- ===================================================================
   Backoff with jitter (ecs_control.py lines 34-37):
   delay = min(cap, base * (2 ** attempt)) * (0.5 + random.random()).
   `random.random()` is drawn uniformly from [0, 1); the draw enters the
   model as the parameter r.
   =================================================================== -/

/-- Delay slept by `_sleep_backoff` for a given attempt and random draw `r`. -/
def backoffDelay (attempt : Nat) (base cap r : ℚ) : ℚ :=
  min cap (base * 2 ^ attempt) * (1/2 + r)

/-- Default `base` argument of `_sleep_backoff` (0.8). -/
def backoffBase : ℚ := 4/5

/-- Default `cap` argument of `_sleep_backoff` (16.0). -/
def backoffCap : ℚ := 16

/- ===================================================================
   Transient-error classification and the retry loops
   (ecs_control.py lines 39-53 and the `for attempt in range(6)` loops,
   e.g. lines 196-219).
   =================================================================== -/

/-- Substring test on character lists, used to model Python `needle in hay`. -/
def charsHaveSub (needle : List Char) : List Char → Bool
  | [] => needle.isEmpty
  | c :: rest => needle.isPrefixOf (c :: rest) || charsHaveSub needle rest

/-- Python `needle in hay` on strings. -/
def strContains (hay needle : String) : Bool :=
  charsHaveSub needle.data hay.data

/-- Exceptions that can reach the `except` clauses of ecs_control.py.
    `clientError code msg` carries the control-plane error code;
    `otherError msg` stands for any other exception and carries its `str`. -/
inductive RemoteError where
  | endpointConnectionError
  | connectionClosedError
  | readTimeoutError
  | waiterError
  | clientError (code : String) (msg : String)
  | otherError (msg : String)
deriving DecidableEq, Repr

/-- Error codes treated as transient in `_is_transient` (lines 45-52). -/
def transientCodes : List String :=
  ["ThrottlingException", "TooManyRequestsException", "RequestLimitExceeded",
   "ServiceUnavailableException", "ServerException", "InternalServiceException"]

/-- Embeds `_is_transient` (lines 39-53): connection / timeout / waiter
    failures are transient; a ClientError is transient iff its code is in
    `transientCodes`; any other exception is transient iff its string
    representation holds the substring "Service Unavailable" (line 53). -/
def isTransient : RemoteError → Bool
  | .endpointConnectionError => true
  | .connectionClosedError => true
  | .readTimeoutError => true
  | .waiterError => true
  | .clientError code _ => transientCodes.contains code
  | .otherError msg => strContains msg "Service Unavailable"

/-- Modelled from the spec: the transient class as the spec describes it
    ("connection/timeout failures, or a control-plane response carrying a
    throttling/overload/internal-error code") — it has no clause for plain
    exceptions whose text holds "Service Unavailable".  Written only to be
    compared with `isTransient`, the classifier of the source. -/
def specTransient : RemoteError → Bool
  | .endpointConnectionError => true
  | .connectionClosedError => true
  | .readTimeoutError => true
  | .waiterError => true
  | .clientError code _ => transientCodes.contains code
  | .otherError _ => false

/-- Embeds the retry loop pattern
    `for attempt in range(budget): try: ...; break / return
       except e: if _is_transient(e) and attempt < budget-1: backoff; continue
       raise`.
    `op a` is the outcome of the remote call at attempt index `a`;
    `remaining` counts the loop iterations still available, so the guard
    `attempt < budget - 1` is exactly `remaining != 1` here.  The
    `remaining = 0` case never arises from `retryCall` with a positive
    budget. -/
def retryGo (op : Nat → Except RemoteError α) : Nat → Nat → Except RemoteError α
  | _, 0 => .error (.otherError "retry loop entered with empty budget")
  | attempt, r + 1 =>
    match op attempt with
    | .ok a => .ok a
    | .error e =>
      if isTransient e && r != 0 then retryGo op (attempt + 1) r
      else .error e

/-- A whole retried call site with the given attempt budget (6 in the source). -/
def retryCall (op : Nat → Except RemoteError α) (budget : Nat) : Except RemoteError α :=
  retryGo op 0 budget

/- ===================================================================
   Terminal phase of submit_builder_and_wait
   (ecs_control.py lines 240-275): read the exit code out of
   describe_tasks, fetch the log tail best-effort, classify success.
   =================================================================== -/

/-- One container of the describe_tasks answer (name and optional exit code). -/
structure ContainerDesc where
  name : String
  exitCode : Option Int
deriving DecidableEq, Repr

/-- One get_log_events answer: the event messages and the forward token. -/
structure LogPage where
  events : List String
  nextForwardToken : Option String
deriving DecidableEq, Repr

/-- Lines 242-246: scan the containers, keep the exit code of the first one
    named "builder". -/
def builderExitCode (containers : List ContainerDesc) : Option Int :=
  (containers.find? (fun c => c.name == "builder")).bind (fun c => c.exitCode)

/-- Test for the exception class named by the `except ClientError` clause of
    line 269: only a ClientError is caught there. -/
def isClientError : RemoteError → Bool
  | .clientError _ _ => true
  | _ => false

/-- String representation of an exception, as interpolated into f-strings
    (`str(err)`); for a ClientError botocore formats code and message. -/
def remoteErrorStr : RemoteError → String
  | .endpointConnectionError => "EndpointConnectionError"
  | .connectionClosedError => "ConnectionClosedError"
  | .readTimeoutError => "ReadTimeoutError"
  | .waiterError => "WaiterError"
  | .clientError code msg => "An error occurred (" ++ code ++ "): " ++ msg
  | .otherError msg => msg

/-- Diagnostic line of line 270. -/
def logsFetchFailMsg (e : String) : String := "[logs] unable to fetch: " ++ e

/-- Diagnostic line of line 273. -/
def missingExitMsg : String := "[builder] missing exit code in ECS describe_tasks"

/-- Python `lines[-n:]`: the last `n` elements. -/
def takeLast (n : Nat) (l : List α) : List α :=
  l.drop (l.length - n)

/-- Embeds the log pagination loop of lines 252-270.  `fetch tok` is the
    behavior of get_log_events when called with forward token `tok` (the
    source starts from the stream head and passes the token only from the
    second page on).  The `try` of line 252 is closed by
    `except ClientError` alone (line 269): a ClientError raised by any call
    ends the loop and is recorded as one synthetic line on the tail built so
    far, while any other exception (connection failure, read timeout, ...)
    propagates out of the loop — modelled by the `.error` result.  The loop
    also stops once the returned token equals the token it sent (line 266),
    and runs at most 50 pages (line 254). -/
def fetchLogLoop (fetch : Option String → Except RemoteError LogPage) :
    List String → Option String → Nat → Except RemoteError (List String)
  | acc, _, 0 => .ok acc
  | acc, token, n + 1 =>
    match fetch token with
    | .error (.clientError code msg) =>
      .ok (acc ++ [logsFetchFailMsg (remoteErrorStr (.clientError code msg))])
    | .error e => .error e
    | .ok page =>
      if page.nextForwardToken == token then .ok (acc ++ page.events)
      else fetchLogLoop fetch (acc ++ page.events) page.nextForwardToken n

/-- Embeds lines 240-275 of submit_builder_and_wait after the stopped-wait:
    extract the builder exit code, fetch the log tail (50 pages, ClientError
    caught and appended, any other exception from the fetch propagating out
    of submit_builder_and_wait itself), append the missing-exit-code
    diagnostic when there is no exit code, and return
    `(exit_code == 0, lines[-400:])`. -/
def submitBuilderTail (containers : List ContainerDesc)
    (fetch : Option String → Except RemoteError LogPage) :
    Except RemoteError (Bool × List String) :=
  let exitCode := builderExitCode containers
  match fetchLogLoop fetch [] none 50 with
  | .error e => .error e
  | .ok lines =>
    .ok (exitCode == some 0,
      takeLast 400 (if exitCode = none then lines ++ [missingExitMsg] else lines))

/- ===================================================================
   World-state model for the service-control functions:
   Cloud Map registrations, task-definition revisions, ECS services.
   Task-definition revisions are tracked by their count per family (the
   content of a revision is derived elsewhere: mergedEnv above); running
   counts and stopped-task listings change asynchronously on the AWS side
   and therefore enter the model as observations.
   =================================================================== -/

/-- An ECS service as the control plane sees it. -/
structure EcsSvc where
  name : String
  status : String
  taskDefinition : String
  desiredCount : Int
deriving DecidableEq, Repr

/-- The slice of AWS state that the embedded functions read and write. -/
structure WorldState where
  nsName : String
  cmServices : List (String × String)
  cmCounter : Nat
  tdRev : String → Nat
  ecsServices : List EcsSvc

/-- Arn of revision `rev` of a task-definition family. -/
def tdArn (family : String) (rev : Nat) : String :=
  "arn:aws:ecs:task-definition/" ++ family ++ ":" ++ toString rev

/-- Cloud Map registrations carried by a state for a given name. -/
def countCm (s : WorldState) (name : String) : Nat :=
  (s.cmServices.filter (fun p => p.1 == name)).length

/-- ECS services carried by a state for a given name. -/
def countEcs (s : WorldState) (name : String) : Nat :=
  (s.ecsServices.filter (fun svc => svc.name == name)).length

/-- Desired count of the (first) service with a given name, when present. -/
def svcDesired (s : WorldState) (name : String) : Option Int :=
  (s.ecsServices.find? (fun svc => svc.name == name)).map (fun svc => svc.desiredCount)

/-- Embeds the Cloud Map ensure of ensure_router_service (lines 320-343):
    create_service answers already-exists when the name is taken in the
    namespace, in which case the source lists the namespace and reuses the
    arn of the service with this name.  Returns ((registry arn, reused?),
    next state). -/
def cmEnsureService (s : WorldState) (name : String) :
    (Option String × Bool) × WorldState :=
  if s.cmServices.any (fun p => p.1 == name) then
    (((s.cmServices.find? (fun p => p.1 == name)).map Prod.snd, true), s)
  else
    let arn := "arn:aws:servicediscovery:service/" ++ toString s.cmCounter
    ((some arn, false),
     { s with cmServices := s.cmServices ++ [(name, arn)],
              cmCounter := s.cmCounter + 1 })

/-- Embeds register_task_definition for the cloned revision (lines 385-401):
    a fresh, one-higher revision of the family becomes the latest. -/
def registerTdRevision (s : WorldState) (family : String) : String × WorldState :=
  (tdArn family (s.tdRev family + 1),
   { s with tdRev := fun f => if f == family then s.tdRev family + 1 else s.tdRev f })

/-- Effect of update_service(service, desiredCount) on the state. -/
def setDesired (s : WorldState) (name : String) (v : Int) : WorldState :=
  { s with ecsServices := (s.ecsServices.map
      (fun svc => if svc.name == name then { svc with desiredCount := v } else svc)) }

/-- Effect of the update path (lines 421-438): point the service at the new
    revision and request the desired count. -/
def setTdAndDesired (s : WorldState) (name td : String) (v : Int) : WorldState :=
  { s with ecsServices := (s.ecsServices.map
      (fun svc => if svc.name == name then
          { svc with taskDefinition := td, desiredCount := v } else svc)) }

/-- Effect of the create path (lines 442-463): a new ACTIVE service. -/
def createEcsService (s : WorldState) (name td : String) (v : Int) : WorldState :=
  { s with ecsServices := s.ecsServices ++
      [{ name := name, status := "ACTIVE", taskDefinition := td, desiredCount := v }] }

/- ===================================================================
   Fail-loop guard (ecs_control.py lines 512-543).
   =================================================================== -/

/-- One task of a describe_tasks answer inside the guard. -/
structure TaskObs where
  taskDefinitionArn : String
  lastStatus : String
deriving DecidableEq, Repr

/-- What one poll iteration of the guard observes: the runningCount of the
    service and the batch of stopped tasks listed for it. -/
structure GuardObs where
  runningCount : Int
  stoppedTasks : List TaskObs
deriving DecidableEq, Repr

/-- Lines 530-533: stopped tasks of the batch attributed to the deployed
    revision. -/
def matchedStops (target : String) (o : GuardObs) : Nat :=
  (o.stoppedTasks.filter
    (fun t => t.taskDefinitionArn == target && t.lastStatus == "STOPPED")).length

/-- Accumulated count of matching stopped-task observations over a run of
    polls (the running total the guard's `failures` counter reaches). -/
def stopsSum (target : String) (l : List GuardObs) : Nat :=
  (l.map (matchedStops target)).sum

/-- How one guard invocation ended. -/
inductive GuardOutcome where
  | reachedDesired
  | scaledToZero
  | windowExpired
deriving DecidableEq, Repr

/-- Embeds the guard loop of lines 517-543.  The observation list stands for
    the polls the while-window admits (the window expiring is the list
    running out); `failures` accumulates across polls.  Each iteration first
    compares runningCount against the desired count (line 519), then adds
    the matching stopped tasks (lines 522-533), then tests the threshold
    (line 535). -/
def guardLoop (target : String) (desired : Int) (threshold : Nat) :
    List GuardObs → Nat → GuardOutcome
  | [], _ => .windowExpired
  | o :: rest, failures =>
    if desired ≤ o.runningCount then .reachedDesired
    else
      if threshold ≤ failures + matchedStops target o then .scaledToZero
      else guardLoop target desired threshold rest (failures + matchedStops target o)

/-- Embeds lines 512-543 as a state transition: when the guard fires, the
    desired count is forced to 0 through update_service — whose own failure
    is swallowed (lines 537-540), modelled by `updFails`. -/
def applyGuard (s : WorldState) (name target : String) (autoStop : Bool)
    (desired : Int) (threshold : Nat) (obs : List GuardObs) (updFails : Bool) :
    WorldState :=
  if autoStop && decide (0 < desired) then
    match guardLoop target desired threshold obs 0 with
    | .scaledToZero => if updFails then s else setDesired s name 0
    | _ => s
  else s

/- ===================================================================
   ensure_router_service (ecs_control.py lines 279-548).
   The remote create / update / register calls are modelled as succeeding
   deterministically; their transient-retry wrappers are the subject of
   `retryCall` above.  The content of the registered revision (env overlay,
   image, port, log options) is the subject of `mergedEnv` above; here a
   revision is tracked by its index so that "which revision does the
   service run" stays observable.
   =================================================================== -/

/-- Everything one call of ensure_router_service produces: the state it
    leaves behind, the DNS name it returns (line 546-548), and which paths
    it went through (observable in the source by which AWS calls it makes). -/
structure EnsureOutcome where
  state : WorldState
  dns : String
  usedUpdatePath : Bool
  cmReused : Bool
  tdRegistered : String

/-- Embeds ensure_router_service.  Steps, in source order: the image guard
    (line 311-312), the service name (line 316), the Cloud Map ensure
    (lines 320-343), the latest-ACTIVE-revision fetch which fails when the
    family has none (lines 346-349), the registration of the cloned revision
    (lines 385-401), describe_services and the exists test (lines 409-411),
    the update-in-place path or the create path (lines 419-510), the
    fail-loop guard (lines 512-543), and the DNS answer (lines 545-548). -/
def ensureRouterService (s : WorldState) (svcPfx scenarioId taskFamily : String)
    (image : Option String) (desiredCount : Int)
    (autoStopOnFail : Bool) (failThreshold : Nat)
    (obs : List GuardObs) (guardUpdFails : Bool) :
    Except String EnsureOutcome :=
  if pyTruthyStr image then
    let serviceName := svcPfx ++ "-" ++ scenarioId
    let cmres := cmEnsureService s serviceName
    let reused := cmres.1.2
    let s1 := cmres.2
    if s1.tdRev taskFamily = 0 then
      .error ("No ACTIVE task definition found for family " ++ taskFamily)
    else
      let tdres := registerTdRevision s1 taskFamily
      let newTd := tdres.1
      let s2 := tdres.2
      let found := s2.ecsServices.find? (fun svc => svc.name == serviceName)
      let svcThere := (found.map (fun svc => !(svc.status == "INACTIVE"))).getD false
      let s3 := if svcThere then setTdAndDesired s2 serviceName newTd desiredCount
                else createEcsService s2 serviceName newTd desiredCount
      let s4 := applyGuard s3 serviceName newTd autoStopOnFail desiredCount
                  failThreshold obs guardUpdFails
      .ok { state := s4, dns := serviceName ++ "." ++ s4.nsName,
            usedUpdatePath := svcThere, cmReused := reused, tdRegistered := newTd }
  else .error "ensure_router_service: image is required"

/-- The world ensure_router_service leaves behind (before the fail-loop
    guard) when the scenario is fresh: Cloud Map entry appended, one new
    task-definition revision registered, service created on the new
    revision.  Spelled out for the idempotence theorems; definitionally
    equal to what the create path of `ensureRouterService` computes. -/
def freshEnsureState (s : WorldState) (n fam : String) (dc : Int) : WorldState :=
  createEcsService
    { s with
      cmServices := (s.cmServices ++
        [(n, "arn:aws:servicediscovery:service/" ++ toString s.cmCounter)]),
      cmCounter := s.cmCounter + 1,
      tdRev := (fun f => if f == fam then s.tdRev fam + 1 else s.tdRev f) }
    n (tdArn fam (s.tdRev fam + 1)) dc

/-- The world ensure_router_service leaves behind (before the fail-loop
    guard) when the service already exists: Cloud Map untouched (reuse),
    one new revision registered, service updated in place to it. -/
def updEnsureState (s : WorldState) (n fam : String) (dc : Int) : WorldState :=
  setTdAndDesired
    { s with tdRev := (fun f => if f == fam then s.tdRev fam + 1 else s.tdRev f) }
    n (tdArn fam (s.tdRev fam + 1)) dc

/- ===================================================================
   delete_router_service (ecs_control.py lines 552-583).
   =================================================================== -/

/-- Error codes swallowed by delete_router_service (lines 564 and 580). -/
def notFoundCodes : List String :=
  ["ClusterNotFoundException", "ServiceNotFoundException"]

/-- update_service(desiredCount): answers ServiceNotFoundException when the
    service is absent. -/
def ecsUpdateDesired (s : WorldState) (name : String) (v : Int) :
    Except String WorldState :=
  if s.ecsServices.any (fun svc => svc.name == name) then .ok (setDesired s name v)
  else .error "ServiceNotFoundException"

/-- delete_service(force=True): answers ServiceNotFoundException when absent,
    removes the service otherwise. -/
def ecsDeleteService (s : WorldState) (name : String) : Except String WorldState :=
  if s.ecsServices.any (fun svc => svc.name == name) then
    .ok { s with ecsServices := s.ecsServices.filter (fun svc => !(svc.name == name)) }
  else .error "ServiceNotFoundException"

/-- Embeds the drain poll of lines 569-574: up to 30 describe_services polls,
    stopping early when the observed runningCount is 0.  `observe i` is the
    runningCount the i-th describe answers (a describe of an already-absent
    service answers the default 0 through `s.get("runningCount", 0)`).
    Returns how many polls ran. -/
def drainLoop (observe : Nat → Int) : Nat → Nat → Nat
  | polls, 0 => polls
  | polls, fuel + 1 =>
    if observe polls = 0 then polls + 1
    else drainLoop observe (polls + 1) fuel

/-- The polls performed by the drain wait of delete_router_service. -/
def drainWaitPolls (observe : Nat → Int) : Nat :=
  drainLoop observe 0 30

/-- Embeds delete_router_service (lines 552-583): scale to zero swallowing
    not-found (lines 560-566), drain-wait (lines 569-574, pure observation),
    then force-delete swallowing not-found (lines 576-582). -/
def deleteRouterService (s : WorldState) (name : String) (observe : Nat → Int) :
    Except String WorldState :=
  match ecsUpdateDesired s name 0 with
  | .error code => if notFoundCodes.contains code then .ok s else .error code
  | .ok s1 =>
    let _ := drainWaitPolls observe
    match ecsDeleteService s1 name with
    | .error code => if notFoundCodes.contains code then .ok s1 else .error code
    | .ok s2 => .ok s2

/- ===================================================================
   Idle reaper (main.py lines 44-46 and 363-383).
   Timestamps are rationals standing for the float epoch seconds of
   time.time().
   =================================================================== -/

/-- Dict lookup for the tracking map (rational values). -/
def trackGet (d : List (String × ℚ)) (k : String) : Option ℚ :=
  (d.find? (fun p => p.1 == k)).map Prod.snd

/-- In-process state the reaper works on: the `_last_hit` tracking map plus
    the AWS world it scales services down in. -/
structure ReaperEnv where
  world : WorldState
  lastHit : List (String × ℚ)

/-- Lines 371-378: the scale-down of one stale service; every exception —
    a transient failure (`fails`) as well as ServiceNotFound — is caught and
    only logged. -/
def reaperScaleDown (w : WorldState) (svcName : String) (fails : Bool) : WorldState :=
  if fails then w
  else
    match ecsUpdateDesired w svcName 0 with
    | .ok w2 => w2
    | .error _ => w

/-- Embeds one tick of `_idle_reaper_loop` (lines 365-379): collect the
    scenarios whose last access is strictly older than the idle window,
    then for each one try the scale-down (failures isolated per entry) and
    drop it from tracking.  `failOracle rid` says whether the update_service
    call for that scenario raises. -/
def idleReaperTick (now idleSecs : ℚ) (failOracle : String → Bool)
    (env : ReaperEnv) : ReaperEnv :=
  let stale := (env.lastHit.filter (fun p => idleSecs < now - p.2)).map Prod.fst
  stale.foldl
    (fun acc rid =>
      { world := reaperScaleDown acc.world ("router-" ++ rid) (failOracle rid),
        lastHit := acc.lastHit.filter (fun p => !(p.1 == rid)) })
    env

/- ===================================================================
   Helper lemmas: the dict model.
   =================================================================== -/

theorem dictGet_cons (p : String × String) (d : List (String × String)) (k : String) :
    dictGet (p :: d) k = if p.1 = k then some p.2 else dictGet d k := by
  by_cases h : p.1 = k <;> simp [dictGet, List.find?_cons, h]

theorem dictHasKey_iff (d : List (String × String)) (k : String) :
    dictHasKey d k = true ↔ ∃ p ∈ d, p.1 = k := by
  simp [dictHasKey, List.any_eq_true]

theorem dictHasKey_false_iff (d : List (String × String)) (k : String) :
    dictHasKey d k = false ↔ ∀ p ∈ d, p.1 ≠ k := by
  rw [← Bool.not_eq_true, dictHasKey_iff]
  push_neg
  rfl

theorem dictGet_eq_none_iff (d : List (String × String)) (k : String) :
    dictGet d k = none ↔ dictHasKey d k = false := by
  simp [dictGet, List.find?_eq_none, dictHasKey_false_iff]

theorem dictGet_append_of_some (d1 d2 : List (String × String)) (k v : String)
    (h : dictGet d1 k = some v) : dictGet (d1 ++ d2) k = some v := by
  induction d1 with
  | nil => simp [dictGet] at h
  | cons p d ih =>
    by_cases hp : p.1 = k
    · simpa [dictGet_cons, hp] using h
    · rw [dictGet_cons, if_neg hp] at h
      simpa [dictGet_cons, hp] using ih h

theorem dictGet_append_of_none (d1 d2 : List (String × String)) (k : String)
    (h : dictGet d1 k = none) : dictGet (d1 ++ d2) k = dictGet d2 k := by
  induction d1 with
  | nil => rfl
  | cons p d ih =>
    by_cases hp : p.1 = k
    · simp [dictGet_cons, hp] at h
    · rw [dictGet_cons, if_neg hp] at h
      simpa [dictGet_cons, hp] using ih h

theorem keys_mapUpdate (d : List (String × String)) (k v : String) :
    (d.map (fun p => if p.1 == k then (k, v) else p)).map Prod.fst = d.map Prod.fst := by
  induction d with
  | nil => rfl
  | cons p d ih =>
    have hfst : (if p.1 == k then (k, v) else p).1 = p.1 := by
      by_cases hp : p.1 = k <;> simp [hp]
    simp only [List.map_cons, hfst, ih]

theorem dictGet_mapUpdate_self (d : List (String × String)) (k v : String) :
    dictGet (d.map (fun p => if p.1 == k then (k, v) else p)) k =
      if dictHasKey d k then some v else none := by
  induction d with
  | nil => rfl
  | cons p d ih =>
    rw [List.map_cons]
    by_cases hp : p.1 = k
    · have hfp : (if p.1 == k then (k, v) else p) = (k, v) := by simp [hp]
      rw [hfp, dictGet_cons, if_pos rfl]
      have : dictHasKey (p :: d) k = true := by
        simp [dictHasKey, List.any_cons, hp]
      rw [this, if_pos rfl]
    · have hfp : (if p.1 == k then (k, v) else p) = p := by simp [hp]
      rw [hfp, dictGet_cons, if_neg hp, ih]
      have : dictHasKey (p :: d) k = dictHasKey d k := by
        simp [dictHasKey, List.any_cons, hp]
      rw [this]

theorem dictGet_mapUpdate_ne (d : List (String × String)) (k v k2 : String)
    (h : k2 ≠ k) :
    dictGet (d.map (fun p => if p.1 == k then (k, v) else p)) k2 = dictGet d k2 := by
  induction d with
  | nil => rfl
  | cons p d ih =>
    rw [List.map_cons]
    by_cases hp : p.1 = k
    · have hfp : (if p.1 == k then (k, v) else p) = (k, v) := by simp [hp]
      rw [hfp, dictGet_cons, dictGet_cons, ih,
        if_neg (show ¬((k, v).1 = k2) by simpa using Ne.symm h),
        if_neg (show ¬(p.1 = k2) by rw [hp]; exact Ne.symm h)]
    · have hfp : (if p.1 == k then (k, v) else p) = p := by simp [hp]
      rw [hfp, dictGet_cons, dictGet_cons, ih]

theorem dictGet_dictSet_self (d : List (String × String)) (k v : String) :
    dictGet (dictSet d k v) k = some v := by
  unfold dictSet
  by_cases h : dictHasKey d k
  · rw [if_pos h, dictGet_mapUpdate_self, if_pos h]
  · have hn : dictGet d k = none := (dictGet_eq_none_iff d k).mpr (by simpa using h)
    rw [if_neg h, dictGet_append_of_none _ _ _ hn, dictGet_cons, if_pos rfl]

theorem dictGet_dictSet_ne (d : List (String × String)) (k v k2 : String)
    (h : k2 ≠ k) : dictGet (dictSet d k v) k2 = dictGet d k2 := by
  unfold dictSet
  by_cases hk : dictHasKey d k
  · rw [if_pos hk, dictGet_mapUpdate_ne _ _ _ _ h]
  · rw [if_neg hk]
    cases hg : dictGet d k2 with
    | some v2 => exact dictGet_append_of_some _ _ _ _ hg
    | none =>
      rw [dictGet_append_of_none _ _ _ hg, dictGet_cons,
        if_neg (show ¬((k, v).1 = k2) by simpa using Ne.symm h)]
      rfl

theorem dictGet_dictSetdefault_ne (d : List (String × String)) (k v k2 : String)
    (h : k2 ≠ k) : dictGet (dictSetdefault d k v) k2 = dictGet d k2 := by
  unfold dictSetdefault
  by_cases hk : dictHasKey d k
  · rw [if_pos hk]
  · rw [if_neg hk]
    cases hg : dictGet d k2 with
    | some v2 => exact dictGet_append_of_some _ _ _ _ hg
    | none =>
      rw [dictGet_append_of_none _ _ _ hg, dictGet_cons,
        if_neg (show ¬((k, v).1 = k2) by simpa using Ne.symm h)]
      rfl

theorem dictGet_dictSetdefault_of_some (d : List (String × String)) (k v w : String)
    (h : dictGet d k = some w) : dictGet (dictSetdefault d k v) k = some w := by
  unfold dictSetdefault
  by_cases hk : dictHasKey d k
  · simp [hk, h]
  · exact absurd ((dictGet_eq_none_iff d k).mpr (by simpa using hk)) (by simp [h])

theorem dictGet_dictSetdefault_of_none (d : List (String × String)) (k v : String)
    (h : dictGet d k = none) : dictGet (dictSetdefault d k v) k = some v := by
  unfold dictSetdefault
  rw [if_neg (by simpa using (dictGet_eq_none_iff d k).mp h)]
  rw [dictGet_append_of_none _ _ _ h]
  simp [dictGet_cons]

theorem dictGet_eq_none_of_not_mem_keys (d : List (String × String)) (k : String)
    (h : k ∉ d.map Prod.fst) : dictGet d k = none := by
  rw [dictGet_eq_none_iff, dictHasKey_false_iff]
  intro p hp hk
  exact h (hk ▸ List.mem_map_of_mem Prod.fst hp)

theorem keys_append_nodup (d : List (String × String)) (k v : String)
    (h : dictKeysNodup d) (hk : dictHasKey d k = false) :
    dictKeysNodup (d ++ [(k, v)]) := by
  have hkm : k ∉ d.map Prod.fst := by
    intro hm
    rcases List.mem_map.mp hm with ⟨p, hp, hpk⟩
    exact ((dictHasKey_false_iff d k).mp hk) p hp hpk
  unfold dictKeysNodup at h ⊢
  rw [List.map_append, List.nodup_append_comm]
  simp only [List.map_cons, List.map_nil, List.singleton_append, List.nodup_cons]
  exact ⟨hkm, h⟩

theorem dictKeysNodup_dictSet (d : List (String × String)) (k v : String)
    (h : dictKeysNodup d) : dictKeysNodup (dictSet d k v) := by
  unfold dictSet
  by_cases hk : dictHasKey d k
  · rw [if_pos hk]
    unfold dictKeysNodup
    rw [keys_mapUpdate]
    exact h
  · rw [if_neg hk]
    exact keys_append_nodup d k v h (by simpa using hk)

theorem dictKeysNodup_dictSetdefault (d : List (String × String)) (k v : String)
    (h : dictKeysNodup d) : dictKeysNodup (dictSetdefault d k v) := by
  unfold dictSetdefault
  by_cases hk : dictHasKey d k
  · rw [if_pos hk]; exact h
  · rw [if_neg hk]
    exact keys_append_nodup d k v h (by simpa using hk)

theorem dictKeysNodup_foldl (l : List (String × String)) :
    ∀ d, dictKeysNodup d → dictKeysNodup (l.foldl (fun d p => dictSet d p.1 p.2) d) := by
  induction l with
  | nil => intro d h; exact h
  | cons p l ih =>
    intro d h
    exact ih (dictSet d p.1 p.2) (dictKeysNodup_dictSet d p.1 p.2 h)

theorem dictKeysNodup_dictOfList (l : List (String × String)) :
    dictKeysNodup (dictOfList l) :=
  dictKeysNodup_foldl l [] (by simp [dictKeysNodup])

theorem dictGet_dictMerge_of_none (a b : List (String × String)) (k : String)
    (h : dictGet b k = none) : dictGet (dictMerge a b) k = dictGet a k := by
  induction b generalizing a with
  | nil => rfl
  | cons p b ih =>
    by_cases hp : p.1 = k
    · simp [dictGet_cons, hp] at h
    · rw [dictGet_cons, if_neg hp] at h
      show dictGet (dictMerge (dictSet a p.1 p.2) b) k = dictGet a k
      rw [ih _ h, dictGet_dictSet_ne _ _ _ _ (Ne.symm hp)]

theorem dictGet_dictMerge_of_some (a b : List (String × String)) (k v : String)
    (hb : dictKeysNodup b) (h : dictGet b k = some v) :
    dictGet (dictMerge a b) k = some v := by
  induction b generalizing a with
  | nil => simp [dictGet] at h
  | cons p b ih =>
    have hb2 : dictKeysNodup b := (List.nodup_cons.mp hb).2
    by_cases hp : p.1 = k
    · rw [dictGet_cons, if_pos hp] at h
      have hv : p.2 = v := Option.some.inj h
      have hnone : dictGet b k = none := by
        apply dictGet_eq_none_of_not_mem_keys
        rw [← hp]
        exact (List.nodup_cons.mp hb).1
      show dictGet (dictMerge (dictSet a p.1 p.2) b) k = some v
      rw [dictGet_dictMerge_of_none _ _ _ hnone, hp, ← hv]
      exact dictGet_dictSet_self _ _ _
    · rw [dictGet_cons, if_neg hp] at h
      exact ih (dictSet a p.1 p.2) hb2 h

/- ===================================================================
   Helper lemmas: the env overlay chain.
   =================================================================== -/

theorem envAddBucket_get_ne (d : List (String × String)) (gb : Option String)
    (k : String) (h : k ≠ "GRAPHS_BUCKET") :
    dictGet (envAddBucket d gb) k = dictGet d k := by
  unfold envAddBucket
  by_cases hb : pyTruthyStr gb
  · rw [if_pos hb, dictGet_dictSet_ne _ _ _ _ h]
  · rw [if_neg hb]

theorem envAddPfx_get_ne (d : List (String × String)) (gp : String)
    (k : String) (h : k ≠ "GRAPH_PREFIX") :
    dictGet (envAddPfx d gp) k = dictGet d k := by
  unfold envAddPfx
  by_cases hp : gp == ""
  · rw [if_pos hp]
  · rw [if_neg hp, dictGet_dictSet_ne _ _ _ _ h]

theorem envAddBucket_nodup (d : List (String × String)) (gb : Option String)
    (h : dictKeysNodup d) : dictKeysNodup (envAddBucket d gb) := by
  unfold envAddBucket
  by_cases hb : pyTruthyStr gb
  · rw [if_pos hb]; exact dictKeysNodup_dictSet _ _ _ h
  · rw [if_neg hb]; exact h

theorem envAddPfx_nodup (d : List (String × String)) (gp : String)
    (h : dictKeysNodup d) : dictKeysNodup (envAddPfx d gp) := by
  unfold envAddPfx
  by_cases hp : gp == ""
  · rw [if_pos hp]; exact h
  · rw [if_neg hp]; exact dictKeysNodup_dictSet _ _ _ h

theorem envChain_nodup (env : Option (List (String × String))) (sid region : String)
    (gb : Option String) (gp : String) :
    dictKeysNodup
      (envAddRegion (envAddPfx (envAddBucket (envAddScenario env sid) gb) gp) region) :=
  dictKeysNodup_dictSetdefault _ _ _
    (envAddPfx_nodup _ _ (envAddBucket_nodup _ _
      (dictKeysNodup_dictSet _ _ _ (dictKeysNodup_dictOfList _))))

/- ===================================================================
   Claim C5: environment-overlay precedence.
   =================================================================== -/

/-- Claim C5 counterexample: the claim says the system-injected region
    (AWS_REGION) overrides any caller-supplied value for the same key, but
    the source injects AWS_REGION with `setdefault` (line 367), so a
    caller-supplied AWS_REGION survives the merge: with caller env
    {AWS_REGION: us-east-1} and system region ap-northeast-1 the merged
    value is the caller value, not the region. -/
theorem envOverlay_region_counterexample :
    dictGet (mergedEnv [] (some [("AWS_REGION", "us-east-1")]) "alpha" "ap-northeast-1"
        none "graphs") "AWS_REGION" = some "us-east-1" ∧
    ("us-east-1" : String) ≠ "ap-northeast-1" := by
  constructor
  · rfl
  · decide

/-- Claim C5 (amended): in the merged environment of the new task-definition
    revision, the system-injected GRAPH_SCENARIO_ID always wins; every
    caller-supplied key other than the system-written GRAPH_SCENARIO_ID,
    GRAPHS_BUCKET and GRAPH_PREFIX keys — including AWS_REGION — overrides
    the base-template default; AWS_REGION is injected only as a default,
    i.e. equals the region exactly when the caller did not supply it; and a
    key touched by neither the caller nor the system keeps its
    base-template default. -/
theorem envOverlay_precedence (baseEnvList caller : List (String × String))
    (sid region : String) (gb : Option String) (gp : String) (k v : String) :
    dictGet (mergedEnv baseEnvList (some caller) sid region gb gp)
        "GRAPH_SCENARIO_ID" = some sid
    ∧ (dictGet (dictOfList caller) k = some v → k ≠ "GRAPH_SCENARIO_ID" →
        k ≠ "GRAPHS_BUCKET" → k ≠ "GRAPH_PREFIX" →
        dictGet (mergedEnv baseEnvList (some caller) sid region gb gp) k = some v)
    ∧ (dictGet (dictOfList caller) "AWS_REGION" = none →
        dictGet (mergedEnv baseEnvList (some caller) sid region gb gp)
          "AWS_REGION" = some region)
    ∧ (dictGet (dictOfList caller) k = none → k ≠ "GRAPH_SCENARIO_ID" →
        k ≠ "GRAPHS_BUCKET" → k ≠ "GRAPH_PREFIX" → k ≠ "AWS_REGION" →
        dictGet (mergedEnv baseEnvList (some caller) sid region gb gp) k =
          dictGet (dictOfList baseEnvList) k) := by
  have hnodup := envChain_nodup (some caller) sid region gb gp
  have hget : ∀ q : String, q ≠ "GRAPH_SCENARIO_ID" → q ≠ "GRAPHS_BUCKET" →
      q ≠ "GRAPH_PREFIX" →
      dictGet (envAddPfx (envAddBucket (envAddScenario (some caller) sid) gb) gp) q =
        dictGet (dictOfList caller) q := by
    intro q h1 h2 h3
    rw [envAddPfx_get_ne _ _ _ h3, envAddBucket_get_ne _ _ _ h2]
    unfold envAddScenario
    rw [dictGet_dictSet_ne _ _ _ _ h1]
    rfl
  refine ⟨?_, ?_, ?_, ?_⟩
  · show dictGet (dictMerge (dictOfList baseEnvList) _) "GRAPH_SCENARIO_ID" = some sid
    apply dictGet_dictMerge_of_some _ _ _ _ hnodup
    unfold envAddRegion
    rw [dictGet_dictSetdefault_ne _ _ _ _ (by decide),
      envAddPfx_get_ne _ _ _ (by decide), envAddBucket_get_ne _ _ _ (by decide)]
    exact dictGet_dictSet_self _ _ _
  · intro hc h1 h2 h3
    apply dictGet_dictMerge_of_some _ _ _ _ hnodup
    unfold envAddRegion
    by_cases hr : k = "AWS_REGION"
    · subst hr
      apply dictGet_dictSetdefault_of_some
      rw [hget _ h1 h2 h3]
      exact hc
    · rw [dictGet_dictSetdefault_ne _ _ _ _ hr, hget _ h1 h2 h3]
      exact hc
  · intro hc
    apply dictGet_dictMerge_of_some _ _ _ _ hnodup
    unfold envAddRegion
    apply dictGet_dictSetdefault_of_none
    rw [hget _ (by decide) (by decide) (by decide)]
    exact hc
  · intro hc h1 h2 h3 h4
    show dictGet (dictMerge (dictOfList baseEnvList) _) k = _
    apply dictGet_dictMerge_of_none
    unfold envAddRegion
    rw [dictGet_dictSetdefault_ne _ _ _ _ h4, hget _ h1 h2 h3]
    exact hc

/-- Witness for the amended C5 theorem at concrete inputs. -/
theorem envOverlay_precedence_witness :
    dictGet (mergedEnv [("FOO", "base")] (some [("FOO", "caller")]) "alpha"
        "ap-northeast-1" none "graphs") "GRAPH_SCENARIO_ID" = some "alpha"
    ∧ dictGet (mergedEnv [("FOO", "base")] (some [("FOO", "caller")]) "alpha"
        "ap-northeast-1" none "graphs") "FOO" = some "caller"
    ∧ dictGet (mergedEnv [("FOO", "base")] (some [("FOO", "caller")]) "alpha"
        "ap-northeast-1" none "graphs") "AWS_REGION" = some "ap-northeast-1"
    ∧ dictGet (mergedEnv [("FOO", "base")] (some [("FOO", "caller")]) "alpha"
        "ap-northeast-1" none "graphs") "BAR" =
        dictGet (dictOfList [("FOO", "base")]) "BAR" :=
  ⟨(envOverlay_precedence [("FOO", "base")] [("FOO", "caller")] "alpha"
      "ap-northeast-1" none "graphs" "FOO" "caller").1,
   (envOverlay_precedence [("FOO", "base")] [("FOO", "caller")] "alpha"
      "ap-northeast-1" none "graphs" "FOO" "caller").2.1
      (by decide) (by decide) (by decide) (by decide),
   (envOverlay_precedence [("FOO", "base")] [("FOO", "caller")] "alpha"
      "ap-northeast-1" none "graphs" "FOO" "caller").2.2.1 (by decide),
   (envOverlay_precedence [("FOO", "base")] [("FOO", "caller")] "alpha"
      "ap-northeast-1" none "graphs" "BAR" "x").2.2.2
      (by decide) (by decide) (by decide) (by decide) (by decide)⟩

/- ===================================================================
   Claim C3: backoff delay.
   =================================================================== -/

/-- Claim C3 counterexample: the claim says the delay is min(cap, base*2^a)
    times a factor drawn from [0.5, 1.0]; the source computes the factor as
    0.5 + random(), which ranges over [0.5, 1.5).  At attempt 0 with the
    draw r = 3/4 (a legal value of random()) the delay is 1.0, which no
    factor in [0.5, 1.0] can produce from min(16, 0.8) = 0.8. -/
theorem backoffJitter_counterexample :
    ((0 : ℚ) ≤ 3/4 ∧ (3/4 : ℚ) < 1) ∧
    ¬ ∃ u : ℚ, 1/2 ≤ u ∧ u ≤ 1 ∧
      backoffDelay 0 backoffBase backoffCap (3/4) =
        min backoffCap (backoffBase * 2 ^ (0 : Nat)) * u := by
  refine ⟨⟨by norm_num, by norm_num⟩, ?_⟩
  rintro ⟨u, h1, h2, h3⟩
  unfold backoffDelay backoffBase backoffCap at h3
  rw [min_eq_right (by norm_num : (4/5 : ℚ) * 2 ^ (0 : Nat) ≤ 16)] at h3
  norm_num at h3
  linarith

/-- Claim C3 (amended): for every attempt index a and every legal value r of
    random() (0 ≤ r < 1), the delay slept by `_sleep_backoff` at the default
    call sites equals min(cap, base * 2^a) times a factor u with
    0.5 ≤ u < 1.5 (namely u = 0.5 + r), with base = 0.8 and cap = 16.0. -/
theorem backoffJitter_amended (a : Nat) (r : ℚ) (h0 : 0 ≤ r) (h1 : r < 1) :
    ∃ u : ℚ, 1/2 ≤ u ∧ u < 3/2 ∧
      backoffDelay a backoffBase backoffCap r =
        min backoffCap (backoffBase * 2 ^ a) * u :=
  ⟨1/2 + r, by linarith, by linarith, rfl⟩

/-- Witness for the amended C3 theorem at a = 5, r = 1/3. -/
theorem backoffJitter_amended_witness :
    ∃ u : ℚ, 1/2 ≤ u ∧ u < 3/2 ∧
      backoffDelay 5 backoffBase backoffCap (1/3) =
        min backoffCap (backoffBase * 2 ^ (5 : Nat)) * u :=
  backoffJitter_amended 5 (1/3) (by norm_num) (by norm_num)

/- ===================================================================
   Helper lemmas: the retry loop.
   =================================================================== -/

theorem retryGo_ok_step (op : Nat → Except RemoteError α) (attempt r : Nat) (a : α)
    (h : op attempt = .ok a) : retryGo op attempt (r + 1) = .ok a := by
  unfold retryGo
  rw [h]

theorem retryGo_err_step (op : Nat → Except RemoteError α) (attempt r : Nat)
    (e : RemoteError) (h : op attempt = .error e) :
    retryGo op attempt (r + 1) =
      if isTransient e && r != 0 then retryGo op (attempt + 1) r else .error e := by
  conv_lhs => rw [retryGo]
  rw [h]

theorem retryGo_success (op : Nat → Except RemoteError α) (k : Nat) :
    ∀ (attempt r : Nat) (a : α), k < r →
      (∀ i, i < k → ∃ e, op (attempt + i) = .error e ∧ isTransient e = true) →
      op (attempt + k) = .ok a → retryGo op attempt r = .ok a := by
  induction k with
  | zero =>
    intro attempt r a hk herr hok
    match r, hk with
    | r + 1, _ =>
      rw [Nat.add_zero] at hok
      exact retryGo_ok_step op attempt r a hok
  | succ k ih =>
    intro attempt r a hk herr hok
    match r, hk with
    | r + 1, hk =>
      rcases herr 0 (Nat.succ_pos k) with ⟨e, he, ht⟩
      rw [Nat.add_zero] at he
      have hcond : (isTransient e && (r != 0)) = true := by
        rw [ht]
        simp
        omega
      rw [retryGo_err_step op attempt r e he, if_pos hcond]
      apply ih (attempt + 1) r a (by omega)
      · intro i hi
        rcases herr (i + 1) (by omega) with ⟨e2, he2, ht2⟩
        have hidx : attempt + 1 + i = attempt + (i + 1) := by omega
        rw [hidx]
        exact ⟨e2, he2, ht2⟩
      · have hidx : attempt + 1 + k = attempt + (k + 1) := by omega
        rw [hidx]
        exact hok

theorem retryGo_exhaust (op : Nat → Except RemoteError α) (es : Nat → RemoteError) :
    ∀ (r attempt : Nat), 0 < r →
      (∀ i, i < r → op (attempt + i) = .error (es (attempt + i)) ∧
        isTransient (es (attempt + i)) = true) →
      retryGo op attempt r = .error (es (attempt + r - 1)) := by
  intro r
  induction r with
  | zero => intro attempt h; exact absurd h (by omega)
  | succ r ih =>
    intro attempt _ herr
    rcases herr 0 (by omega) with ⟨he, ht⟩
    rw [Nat.add_zero] at he ht
    rw [retryGo_err_step op attempt r _ he]
    rcases Nat.eq_zero_or_pos r with hr0 | hrpos
    · subst hr0
      rw [if_neg (by simp)]
      have hidx : attempt + (0 + 1) - 1 = attempt := by omega
      rw [hidx]
    · have hcond : (isTransient (es attempt) && (r != 0)) = true := by
        rw [ht]
        simp
        omega
      have herr2 : ∀ i, i < r → op (attempt + 1 + i) = .error (es (attempt + 1 + i)) ∧
          isTransient (es (attempt + 1 + i)) = true := by
        intro i hi
        have hidx : attempt + 1 + i = attempt + (i + 1) := by omega
        rw [hidx]
        exact herr (i + 1) (by omega)
      rw [if_pos hcond, ih (attempt + 1) hrpos herr2]
      have hidx : attempt + 1 + r - 1 = attempt + (r + 1) - 1 := by omega
      rw [hidx]

theorem retryGo_fatal (op : Nat → Except RemoteError α) (attempt r : Nat)
    (e : RemoteError) (h : op attempt = .error e) (ht : isTransient e = false)
    (hr : 0 < r) : retryGo op attempt r = .error e := by
  match r, hr with
  | r + 1, _ =>
    rw [retryGo_err_step op attempt r e h, if_neg (by simp [ht])]

theorem specTransient_imp_isTransient (e : RemoteError)
    (h : specTransient e = true) : isTransient e = true := by
  cases e <;> simp_all [specTransient, isTransient]

/- ===================================================================
   Claim C4: retry policy of the backoff/retry engine.
   =================================================================== -/

/-- Claim C4 counterexample: the claim enumerates the transient class as
    connection/timeout/waiter failures or throttling/overload/internal
    control-plane codes and says every other error propagates immediately
    without retry.  A plain exception whose text holds "Service Unavailable"
    is outside that enumeration (specTransient = false), yet line 53 of
    `_is_transient` classifies it transient, so the loop retries it: with
    such an error at attempt 0 and success at attempt 1 the call returns
    the success value instead of propagating the error. -/
theorem retryPolicy_counterexample :
    specTransient (.otherError "HTTP 503 Service Unavailable") = false ∧
    isTransient (.otherError "HTTP 503 Service Unavailable") = true ∧
    (fun i => if i = 0
        then (.error (.otherError "HTTP 503 Service Unavailable") : Except RemoteError Nat)
        else .ok 42) 0 =
      .error (.otherError "HTTP 503 Service Unavailable") ∧
    retryCall (fun i => if i = 0
        then (.error (.otherError "HTTP 503 Service Unavailable") : Except RemoteError Nat)
        else .ok 42) 6 = .ok 42 := by
  refine ⟨rfl, by decide, rfl, rfl⟩

/-- Claim C4 (amended): the transient class of the engine is the enumerated
    one of the claim plus any other exception whose text holds the substring
    "Service Unavailable" (line 53); with that classification the claimed
    behavior holds: every enumerated-transient error is retried, a
    transient-error sequence shorter than the attempt budget followed by
    success yields the success value, a pure transient-error sequence at
    least as long as the budget re-raises the last error, and a
    non-transient error propagates immediately from attempt 0. -/
theorem retryPolicy_amended (α : Type) :
    (∀ e, specTransient e = true → isTransient e = true)
    ∧ (∀ (op : Nat → Except RemoteError α) (b k : Nat) (a : α),
        k < b →
        (∀ i, i < k → ∃ e, op i = .error e ∧ isTransient e = true) →
        op k = .ok a → retryCall op b = .ok a)
    ∧ (∀ (op : Nat → Except RemoteError α) (es : Nat → RemoteError) (b : Nat),
        0 < b →
        (∀ i, i < b → op i = .error (es i) ∧ isTransient (es i) = true) →
        retryCall op b = .error (es (b - 1)))
    ∧ (∀ (op : Nat → Except RemoteError α) (b : Nat) (e : RemoteError),
        0 < b → op 0 = .error e → isTransient e = false →
        retryCall op b = .error e) := by
  refine ⟨specTransient_imp_isTransient, ?_, ?_, ?_⟩
  · intro op b k a hk herr hok
    unfold retryCall
    apply retryGo_success op k 0 b a hk
    · intro i hi
      rw [Nat.zero_add]
      exact herr i hi
    · rw [Nat.zero_add]
      exact hok
  · intro op es b hb herr
    unfold retryCall
    have h := retryGo_exhaust op es b 0 hb (by
      intro i hi
      rw [Nat.zero_add]
      exact herr i hi)
    rw [Nat.zero_add] at h
    exact h
  · intro op b e hb h0 ht
    unfold retryCall
    exact retryGo_fatal op 0 b e h0 ht hb

/-- Witness for the amended C4 theorem: a waiter failure at attempt 0 then
    success; six throttling errors exhausting the budget; a non-transient
    error propagating at once. -/
theorem retryPolicy_amended_witness :
    retryCall (fun i => if i = 0 then (.error .waiterError : Except RemoteError Nat)
        else .ok 7) 6 = .ok 7 ∧
    retryCall (fun _ => (.error (.clientError "ThrottlingException" "busy") :
        Except RemoteError Nat)) 6 =
      .error (.clientError "ThrottlingException" "busy") ∧
    retryCall (fun _ => (.error (.clientError "AccessDenied" "no") :
        Except RemoteError Nat)) 6 = .error (.clientError "AccessDenied" "no") :=
  ⟨(retryPolicy_amended Nat).2.1
      (fun i => if i = 0 then (.error .waiterError : Except RemoteError Nat) else .ok 7)
      6 1 7 (by omega)
      (by
        intro i hi
        have hi0 : i = 0 := by omega
        subst hi0
        exact ⟨.waiterError, rfl, rfl⟩)
      rfl,
   (retryPolicy_amended Nat).2.2.1
      (fun _ => (.error (.clientError "ThrottlingException" "busy") :
        Except RemoteError Nat))
      (fun _ => .clientError "ThrottlingException" "busy")
      6 (by omega)
      (by
        intro i hi
        refine ⟨rfl, ?_⟩
        show isTransient (.clientError "ThrottlingException" "busy") = true
        decide),
   (retryPolicy_amended Nat).2.2.2
      (fun _ => (.error (.clientError "AccessDenied" "no") : Except RemoteError Nat))
      6 (.clientError "AccessDenied" "no")
      (by omega) rfl (by decide)⟩

/- ===================================================================
   Helper lemmas: takeLast and the log fetch loop.
   =================================================================== -/

theorem takeLast_length_le (n : Nat) (l : List α) : (takeLast n l).length ≤ n := by
  unfold takeLast
  rw [List.length_drop]
  omega

theorem getLast?_drop_of_lt (l : List α) :
    ∀ k, k < l.length → (l.drop k).getLast? = l.getLast? := by
  induction l with
  | nil => intro k hk; simp at hk
  | cons a l ih =>
    intro k hk
    match k with
    | 0 => rfl
    | j + 1 =>
      have hj : j < l.length := by simpa using hk
      rw [List.drop_succ_cons, ih j hj]
      match l, hj with
      | b :: l2, _ => rw [List.getLast?_cons_cons]

theorem takeLast_getLast? (n : Nat) (l : List α) (hn : 0 < n) :
    (takeLast n l).getLast? = l.getLast? := by
  unfold takeLast
  rcases Nat.lt_or_ge (l.length - n) l.length with h | h
  · exact getLast?_drop_of_lt l _ h
  · have : l.length - n = 0 := by omega
    rw [this]
    rfl

theorem fetchLogLoop_client_step (fetch : Option String → Except RemoteError LogPage)
    (acc : List String) (token : Option String) (n : Nat) (code msg : String)
    (h : fetch token = .error (.clientError code msg)) :
    fetchLogLoop fetch acc token (n + 1) =
      .ok (acc ++ [logsFetchFailMsg (remoteErrorStr (.clientError code msg))]) := by
  conv_lhs => rw [fetchLogLoop]
  rw [h]

theorem fetchLogLoop_fatal_step (fetch : Option String → Except RemoteError LogPage)
    (acc : List String) (token : Option String) (n : Nat) (e : RemoteError)
    (hna : isClientError e = false) (h : fetch token = .error e) :
    fetchLogLoop fetch acc token (n + 1) = .error e := by
  conv_lhs => rw [fetchLogLoop]
  rw [h]
  cases e with
  | clientError code msg => simp [isClientError] at hna
  | endpointConnectionError => rfl
  | connectionClosedError => rfl
  | readTimeoutError => rfl
  | waiterError => rfl
  | otherError msg => rfl

theorem fetchLogLoop_ok_step (fetch : Option String → Except RemoteError LogPage)
    (acc : List String) (token : Option String) (n : Nat) (page : LogPage)
    (h : fetch token = .ok page) :
    fetchLogLoop fetch acc token (n + 1) =
      if page.nextForwardToken == token then .ok (acc ++ page.events)
      else fetchLogLoop fetch (acc ++ page.events) page.nextForwardToken n := by
  conv_lhs => rw [fetchLogLoop]
  rw [h]

theorem submitBuilderTail_of_loop_ok (containers : List ContainerDesc)
    (fetch : Option String → Except RemoteError LogPage) (lines : List String)
    (h : fetchLogLoop fetch [] none 50 = .ok lines) :
    submitBuilderTail containers fetch =
      .ok (builderExitCode containers == some 0,
        takeLast 400 (if builderExitCode containers = none
          then lines ++ [missingExitMsg] else lines)) := by
  unfold submitBuilderTail
  rw [h]

theorem submitBuilderTail_of_loop_err (containers : List ContainerDesc)
    (fetch : Option String → Except RemoteError LogPage) (e : RemoteError)
    (h : fetchLogLoop fetch [] none 50 = .error e) :
    submitBuilderTail containers fetch = .error e := by
  unfold submitBuilderTail
  rw [h]

/- ===================================================================
   Claim C2: success classification of submit_builder_and_wait.
   =================================================================== -/

set_option maxRecDepth 4000 in
/-- Claim C2: for every describe_tasks answer and every log-fetch behavior
    under which submit_builder_and_wait returns a result, it reports success
    exactly when the builder container of the terminal state carries exit
    code 0 — any other exit code, and a missing exit code, give failure —
    and a missing exit code appends the diagnostic line as the last line of
    the returned tail. -/
theorem submitBuilder_success_iff (containers : List ContainerDesc)
    (fetch : Option String → Except RemoteError LogPage) (res : Bool × List String)
    (h : submitBuilderTail containers fetch = .ok res) :
    (res.1 = true ↔ builderExitCode containers = some 0)
    ∧ (builderExitCode containers = none →
        res.2.getLast? = some missingExitMsg) := by
  cases hl : fetchLogLoop fetch [] none 50 with
  | error e =>
    rw [submitBuilderTail_of_loop_err containers fetch e hl] at h
    exact absurd h (by simp)
  | ok lines =>
    rw [submitBuilderTail_of_loop_ok containers fetch lines hl] at h
    have hres : res = (builderExitCode containers == some 0,
        takeLast 400 (if builderExitCode containers = none
          then lines ++ [missingExitMsg] else lines)) := (Except.ok.inj h).symm
    subst hres
    constructor
    · simp
    · intro hnone
      show (takeLast 400 _).getLast? = _
      rw [if_pos hnone, takeLast_getLast? 400 _ (by norm_num), List.getLast?_concat]

/-- Witness for C2: a builder container with exit code 0 is a success; an
    answer without a builder container has the diagnostic as last line. -/
theorem submitBuilder_success_iff_witness :
    (((true, []) : Bool × List String).1 = true ↔
      builderExitCode [ContainerDesc.mk "builder" (some 0)] = some 0)
    ∧ ((false, [missingExitMsg]) : Bool × List String).2.getLast? =
        some missingExitMsg :=
  ⟨(submitBuilder_success_iff [ContainerDesc.mk "builder" (some 0)]
      (fun _ => .ok (LogPage.mk [] none)) (true, []) rfl).1,
   (submitBuilder_success_iff [] (fun _ => .ok (LogPage.mk [] none))
      (false, [missingExitMsg]) rfl).2 rfl⟩

/- ===================================================================
   Claim C9: bounded, best-effort log retrieval.
   =================================================================== -/

/-- Claim C9 counterexample: the claim says any failure to fetch logs is
    appended to the returned tail and never raised, but the `except` clause
    of line 269 names only ClientError; a read timeout raised by
    get_log_events is outside that class and propagates out of
    submit_builder_and_wait instead of being appended. -/
theorem logRetrieval_counterexample :
    isClientError RemoteError.readTimeoutError = false ∧
    submitBuilderTail [ContainerDesc.mk "builder" (some 0)]
      (fun _ => .error .readTimeoutError) = .error .readTimeoutError :=
  ⟨rfl, rfl⟩

set_option maxRecDepth 4000 in
/-- Claim C9 (amended): log retrieval reads the stream from the head,
    paginates until the forward token repeats, and the returned tail holds
    at most the most recent 400 lines; a ClientError from the log fetch is
    appended to the tail as one synthetic diagnostic line and not raised,
    while any other exception from the fetch (connection failure, read
    timeout) propagates to the caller of submit_builder_and_wait. -/
theorem logRetrieval_bounded (containers : List ContainerDesc)
    (fetch : Option String → Except RemoteError LogPage) :
    (∀ res : Bool × List String, submitBuilderTail containers fetch = .ok res →
      res.2.length ≤ 400)
    ∧ (∀ (acc : List String) (token : Option String) (n : Nat) (page : LogPage),
        fetch token = .ok page → page.nextForwardToken = token →
        fetchLogLoop fetch acc token (n + 1) = .ok (acc ++ page.events))
    ∧ (∀ (acc : List String) (token : Option String) (n : Nat) (code msg : String),
        fetch token = .error (.clientError code msg) →
        fetchLogLoop fetch acc token (n + 1) =
          .ok (acc ++ [logsFetchFailMsg (remoteErrorStr (.clientError code msg))]))
    ∧ (∀ (acc : List String) (token : Option String) (n : Nat) (e : RemoteError),
        isClientError e = false → fetch token = .error e →
        fetchLogLoop fetch acc token (n + 1) = .error e) := by
  refine ⟨?_, ?_, ?_, ?_⟩
  · intro res h
    cases hl : fetchLogLoop fetch [] none 50 with
    | error e =>
      rw [submitBuilderTail_of_loop_err containers fetch e hl] at h
      exact absurd h (by simp)
    | ok lines =>
      rw [submitBuilderTail_of_loop_ok containers fetch lines hl] at h
      have hres : res = (builderExitCode containers == some 0,
          takeLast 400 (if builderExitCode containers = none
            then lines ++ [missingExitMsg] else lines)) := (Except.ok.inj h).symm
      subst hres
      exact takeLast_length_le 400 _
  · intro acc token n page hf ht
    rw [fetchLogLoop_ok_step fetch acc token n page hf,
      if_pos (beq_iff_eq.mpr ht)]
  · intro acc token n code msg hf
    exact fetchLogLoop_client_step fetch acc token n code msg hf
  · intro acc token n e hna hf
    exact fetchLogLoop_fatal_step fetch acc token n e hna hf

/-- Witness for the amended C9: a ClientError from the fetch is appended, a
    repeating-token page stops the loop, a read timeout propagates, and a
    returned tail stays within 400 lines. -/
theorem logRetrieval_bounded_witness :
    (((false, [logsFetchFailMsg (remoteErrorStr
          (.clientError "AccessDenied" "no")), missingExitMsg]) :
        Bool × List String).2.length ≤ 400)
    ∧ fetchLogLoop (fun t => .ok (LogPage.mk ["x"] t)) [] none 50 =
        .ok ([] ++ ["x"])
    ∧ fetchLogLoop (fun _ => .error (.clientError "AccessDenied" "no"))
        ["y"] none 50 =
        .ok (["y"] ++ [logsFetchFailMsg (remoteErrorStr
          (.clientError "AccessDenied" "no"))])
    ∧ fetchLogLoop (fun _ => .error .readTimeoutError) ["y"] none 50 =
        .error .readTimeoutError :=
  ⟨(logRetrieval_bounded []
      (fun _ => .error (.clientError "AccessDenied" "no"))).1
      (false, [logsFetchFailMsg (remoteErrorStr
        (.clientError "AccessDenied" "no")), missingExitMsg]) rfl,
   (logRetrieval_bounded [] (fun t => .ok (LogPage.mk ["x"] t))).2.1
      [] none 49 (LogPage.mk ["x"] none) rfl rfl,
   (logRetrieval_bounded []
      (fun _ => .error (.clientError "AccessDenied" "no"))).2.2.1
      ["y"] none 49 "AccessDenied" "no" rfl,
   (logRetrieval_bounded [] (fun _ => .error .readTimeoutError)).2.2.2
      ["y"] none 49 .readTimeoutError rfl rfl⟩

/- ===================================================================
   Helper lemmas: the fail-loop guard.
   =================================================================== -/

theorem guardLoop_cons (target : String) (desired : Int) (threshold : Nat)
    (o : GuardObs) (rest : List GuardObs) (f : Nat) :
    guardLoop target desired threshold (o :: rest) f =
      if desired ≤ o.runningCount then .reachedDesired
      else if threshold ≤ f + matchedStops target o then .scaledToZero
      else guardLoop target desired threshold rest (f + matchedStops target o) := rfl

theorem stopsSum_cons (target : String) (o : GuardObs) (l : List GuardObs) :
    stopsSum target (o :: l) = matchedStops target o + stopsSum target l := by
  simp [stopsSum]

theorem guardLoop_scales (target : String) (desired : Int) (threshold : Nat) :
    ∀ (obs : List GuardObs) (k f : Nat), k < obs.length →
      (∀ o ∈ obs.take (k + 1), o.runningCount < desired) →
      threshold ≤ f + stopsSum target (obs.take (k + 1)) →
      guardLoop target desired threshold obs f = .scaledToZero := by
  intro obs
  induction obs with
  | nil => intro k f hk _ _; simp at hk
  | cons o rest ih =>
    intro k f hk hrun hsum
    have htake : (o :: rest).take (k + 1) = o :: rest.take k := List.take_succ_cons
    rw [htake] at hrun hsum
    have ho : o.runningCount < desired := hrun o (List.mem_cons_self o _)
    rw [guardLoop_cons, if_neg (not_le.mpr ho)]
    by_cases hth : threshold ≤ f + matchedStops target o
    · rw [if_pos hth]
    · rw [if_neg hth]
      rw [stopsSum_cons] at hsum
      have hk1 : 1 ≤ k := by
        by_contra hk0
        have hkz : k = 0 := by omega
        subst hkz
        simp [stopsSum] at hsum
        omega
      have hkl : k - 1 < rest.length := by
        simp only [List.length_cons] at hk
        omega
      have htake2 : rest.take ((k - 1) + 1) = rest.take k := by
        have : (k - 1) + 1 = k := by omega
        rw [this]
      apply ih (k - 1) (f + matchedStops target o) hkl
      · rw [htake2]
        intro q hq
        exact hrun q (List.mem_cons_of_mem o hq)
      · rw [htake2]
        omega

theorem guardLoop_healthy (target : String) (desired : Int) (threshold : Nat) :
    ∀ (pre : List GuardObs) (o : GuardObs) (post : List GuardObs) (f : Nat),
      desired ≤ o.runningCount →
      (∀ p ∈ pre, p.runningCount < desired) →
      (∀ j, 0 < j → j ≤ pre.length → f + stopsSum target (pre.take j) < threshold) →
      guardLoop target desired threshold (pre ++ o :: post) f = .reachedDesired := by
  intro pre
  induction pre with
  | nil =>
    intro o post f ho _ _
    rw [List.nil_append, guardLoop_cons, if_pos ho]
  | cons p pre ih =>
    intro o post f ho hrun hcum
    rw [List.cons_append, guardLoop_cons,
      if_neg (not_le.mpr (hrun p (List.mem_cons_self p pre)))]
    have h1 : f + matchedStops target p < threshold := by
      have h2 := hcum 1 (by omega) (by simp)
      simpa [stopsSum] using h2
    rw [if_neg (by omega)]
    apply ih o post (f + matchedStops target p) ho
    · intro q hq
      exact hrun q (List.mem_cons_of_mem p hq)
    · intro j hj hjle
      have h3 := hcum (j + 1) (by omega) (by simpa using hjle)
      rw [List.take_succ_cons, stopsSum_cons] at h3
      omega

/- ===================================================================
   Claim C6: the fail-loop guard dichotomy.
   =================================================================== -/

/-- Claim C6: within the observation window, when the accumulated count of
    stopped tasks attributed to the deployed revision reaches the threshold
    while the running count has stayed below the desired count, the guard
    stops with a forced scale-to-zero of the service; when the running count
    reaches the desired count before the accumulated count reaches the
    threshold, the guard stops and the state is left untouched. -/
theorem failLoopGuard_dichotomy (s : WorldState) (name target : String)
    (desired : Int) (threshold : Nat) (obs : List GuardObs) (hd : 0 < desired) :
    (∀ k, k < obs.length →
      (∀ o ∈ obs.take (k + 1), o.runningCount < desired) →
      threshold ≤ stopsSum target (obs.take (k + 1)) →
      guardLoop target desired threshold obs 0 = .scaledToZero ∧
      applyGuard s name target true desired threshold obs false = setDesired s name 0)
    ∧ (∀ (pre : List GuardObs) (o : GuardObs) (post : List GuardObs),
        obs = pre ++ o :: post →
        desired ≤ o.runningCount →
        (∀ p ∈ pre, p.runningCount < desired) →
        (∀ j, 0 < j → j ≤ pre.length → stopsSum target (pre.take j) < threshold) →
        guardLoop target desired threshold obs 0 = .reachedDesired ∧
        applyGuard s name target true desired threshold obs false = s) := by
  constructor
  · intro k hk hrun hsum
    have hloop : guardLoop target desired threshold obs 0 = .scaledToZero :=
      guardLoop_scales target desired threshold obs k 0 hk hrun
        (by rw [Nat.zero_add]; exact hsum)
    refine ⟨hloop, ?_⟩
    unfold applyGuard
    rw [if_pos (by simp [hd]), hloop]
    rfl
  · intro pre o post hobs ho hrun hcum
    subst hobs
    have hloop : guardLoop target desired threshold (pre ++ o :: post) 0 =
        .reachedDesired :=
      guardLoop_healthy target desired threshold pre o post 0 ho hrun
        (by intro j hj hjle; rw [Nat.zero_add]; exact hcum j hj hjle)
    refine ⟨hloop, ?_⟩
    unfold applyGuard
    rw [if_pos (by simp [hd]), hloop]

/-- Witness for C6: three matching stopped tasks in one poll with the
    replica never running force the scale-to-zero; a first poll already at
    the desired running count leaves the state untouched. -/
theorem failLoopGuard_dichotomy_witness :
    (guardLoop "td" 1 3 [GuardObs.mk 0 [TaskObs.mk "td" "STOPPED",
        TaskObs.mk "td" "STOPPED", TaskObs.mk "td" "STOPPED"]] 0 = .scaledToZero ∧
      applyGuard (WorldState.mk "ns" [] 0 (fun _ => 1) []) "router-a" "td" true 1 3
        [GuardObs.mk 0 [TaskObs.mk "td" "STOPPED", TaskObs.mk "td" "STOPPED",
          TaskObs.mk "td" "STOPPED"]] false =
        setDesired (WorldState.mk "ns" [] 0 (fun _ => 1) []) "router-a" 0)
    ∧ (guardLoop "td" 1 3 [GuardObs.mk 1 []] 0 = .reachedDesired ∧
      applyGuard (WorldState.mk "ns" [] 0 (fun _ => 1) []) "router-a" "td" true 1 3
        [GuardObs.mk 1 []] false = WorldState.mk "ns" [] 0 (fun _ => 1) []) :=
  ⟨(failLoopGuard_dichotomy (WorldState.mk "ns" [] 0 (fun _ => 1) []) "router-a" "td"
      1 3 [GuardObs.mk 0 [TaskObs.mk "td" "STOPPED", TaskObs.mk "td" "STOPPED",
        TaskObs.mk "td" "STOPPED"]] (by decide)).1 0 (by decide)
      (by decide) (by decide),
   (failLoopGuard_dichotomy (WorldState.mk "ns" [] 0 (fun _ => 1) []) "router-a" "td"
      1 3 [GuardObs.mk 1 []] (by decide)).2 [] (GuardObs.mk 1 []) [] rfl (by decide)
      (by decide) (by intro j hj hjle; simp at hjle; omega)⟩

/- ===================================================================
   Helper lemmas: name-preserving service updates and the drain wait.
   =================================================================== -/

theorem any_name_map (l : List EcsSvc) (f : EcsSvc → EcsSvc)
    (hf : ∀ svc, (f svc).name = svc.name) (n : String) :
    (l.map f).any (fun svc => svc.name == n) = l.any (fun svc => svc.name == n) := by
  induction l with
  | nil => rfl
  | cons a l ih => simp [List.any_cons, hf a, ih]

theorem setDesired_fun_name (n0 : String) (v : Int) (svc : EcsSvc) :
    ((if svc.name == n0 then { svc with desiredCount := v } else svc) : EcsSvc).name =
      svc.name := by
  by_cases h : svc.name = n0 <;> simp [h]

theorem setDesired_any (s : WorldState) (n0 : String) (v : Int) (n : String) :
    (setDesired s n0 v).ecsServices.any (fun svc => svc.name == n) =
      s.ecsServices.any (fun svc => svc.name == n) := by
  show (s.ecsServices.map _).any _ = _
  exact any_name_map s.ecsServices _ (setDesired_fun_name n0 v) n

theorem countEcs_zero_of_all_not (l : List EcsSvc) (n : String)
    (h : ∀ svc ∈ l, ¬(svc.name = n)) :
    (l.filter (fun svc => svc.name == n)).length = 0 := by
  rw [List.length_eq_zero, List.filter_eq_nil_iff]
  intro a ha
  simpa using h a ha

theorem drainLoop_le (observe : Nat → Int) :
    ∀ (fuel polls : Nat), drainLoop observe polls fuel ≤ polls + fuel := by
  intro fuel
  induction fuel with
  | zero => intro polls; simp [drainLoop]
  | succ fuel ih =>
    intro polls
    unfold drainLoop
    by_cases h : observe polls = 0
    · rw [if_pos h]; omega
    · rw [if_neg h]
      calc drainLoop observe (polls + 1) fuel ≤ (polls + 1) + fuel := ih (polls + 1)
        _ = polls + (fuel + 1) := by omega

theorem deleteRouterService_of_update_err (s : WorldState) (name : String)
    (observe : Nat → Int) (code : String)
    (h : ecsUpdateDesired s name 0 = .error code) :
    deleteRouterService s name observe =
      if notFoundCodes.contains code then .ok s else .error code := by
  unfold deleteRouterService
  rw [h]

theorem deleteRouterService_of_update_ok (s s1 : WorldState) (name : String)
    (observe : Nat → Int) (h : ecsUpdateDesired s name 0 = .ok s1) :
    deleteRouterService s name observe =
      match ecsDeleteService s1 name with
      | .error code => if notFoundCodes.contains code then .ok s1 else .error code
      | .ok s2 => .ok s2 := by
  unfold deleteRouterService
  rw [h]

/- ===================================================================
   Claim C7: teardown tolerance.
   =================================================================== -/

/-- Claim C7: deleting a service that does not exist returns success and
    never raises (the not-found error of the scale-to-zero step is
    swallowed); the drain wait polls at most 30 times; and when the service
    does exist, deletion goes through for every drain observation — even one
    whose running count never reaches zero — leaving no service of that name
    behind (the delete step swallows not-found the same way). -/
theorem deleteService_tolerant (s : WorldState) (name : String)
    (observe : Nat → Int) :
    (s.ecsServices.any (fun svc => svc.name == name) = false →
      deleteRouterService s name observe = .ok s)
    ∧ drainWaitPolls observe ≤ 30
    ∧ (s.ecsServices.any (fun svc => svc.name == name) = true →
      ∃ s2, deleteRouterService s name observe = .ok s2 ∧ countEcs s2 name = 0) := by
  refine ⟨?_, ?_, ?_⟩
  · intro h
    have h1 : ecsUpdateDesired s name 0 = .error "ServiceNotFoundException" := by
      unfold ecsUpdateDesired
      rw [h]
      rfl
    rw [deleteRouterService_of_update_err s name observe _ h1]
    rfl
  · exact drainLoop_le observe 30 0
  · intro h
    have h1 : ecsUpdateDesired s name 0 = .ok (setDesired s name 0) := by
      unfold ecsUpdateDesired
      rw [h]
      rfl
    have h2 : (setDesired s name 0).ecsServices.any (fun svc => svc.name == name) =
        true := by
      rw [setDesired_any]
      exact h
    have h3 : ecsDeleteService (setDesired s name 0) name =
        .ok { setDesired s name 0 with
              ecsServices := (setDesired s name 0).ecsServices.filter
                (fun svc => !(svc.name == name)) } := by
      unfold ecsDeleteService
      rw [h2]
      rfl
    have hdel := deleteRouterService_of_update_ok s (setDesired s name 0) name observe h1
    rw [h3] at hdel
    refine ⟨_, hdel, ?_⟩
    unfold countEcs
    apply countEcs_zero_of_all_not
    intro svc hsvc hn
    have hmem := List.of_mem_filter hsvc
    simp [hn] at hmem

/-- Witness for C7: deleting from a world without the service answers the
    same world; deleting an existing service removes it even when the drain
    observation never reaches zero. -/
theorem deleteService_tolerant_witness :
    deleteRouterService (WorldState.mk "ns" [] 0 (fun _ => 1) []) "router-a"
        (fun _ => 1) = .ok (WorldState.mk "ns" [] 0 (fun _ => 1) [])
    ∧ drainWaitPolls (fun _ => 1) ≤ 30
    ∧ ∃ s2, deleteRouterService
        (WorldState.mk "ns" [] 0 (fun _ => 1)
          [EcsSvc.mk "router-a" "ACTIVE" "td" 1]) "router-a" (fun _ => 1) = .ok s2 ∧
        countEcs s2 "router-a" = 0 :=
  ⟨(deleteService_tolerant (WorldState.mk "ns" [] 0 (fun _ => 1) []) "router-a"
      (fun _ => 1)).1 rfl,
   (deleteService_tolerant (WorldState.mk "ns" [] 0 (fun _ => 1) []) "router-a"
      (fun _ => 1)).2.1,
   (deleteService_tolerant (WorldState.mk "ns" [] 0 (fun _ => 1)
      [EcsSvc.mk "router-a" "ACTIVE" "td" 1]) "router-a" (fun _ => 1)).2.2 (by decide)⟩

/- ===================================================================
   Helper lemmas: the idle-reaper tick.
   =================================================================== -/

theorem routerName_inj (a b : String) (h : "router-" ++ a = "router-" ++ b) :
    a = b := by
  have h2 : ("router-" ++ a).data = ("router-" ++ b).data := by rw [h]
  rw [String.data_append, String.data_append] at h2
  have h3 : a.data = b.data := List.append_cancel_left h2
  cases a with
  | mk la =>
    cases b with
    | mk lb =>
      simp only at h3
      rw [h3]

theorem find?_name_map (l : List EcsSvc) (f : EcsSvc → EcsSvc)
    (hf : ∀ svc, (f svc).name = svc.name) (n : String) :
    (l.map f).find? (fun svc => svc.name == n) =
      (l.find? (fun svc => svc.name == n)).map f := by
  induction l with
  | nil => rfl
  | cons a l ih =>
    rw [List.map_cons]
    by_cases h : a.name = n
    · rw [List.find?_cons_of_pos _ (by simp [hf a, h]),
        List.find?_cons_of_pos _ (by simp [h])]
      rfl
    · rw [List.find?_cons_of_neg _ (by simp [hf a, h]),
        List.find?_cons_of_neg _ (by simp [h]), ih]

theorem svcDesired_setDesired_ne (s : WorldState) (n0 : String) (v : Int)
    (n : String) (h : n ≠ n0) :
    svcDesired (setDesired s n0 v) n = svcDesired s n := by
  unfold svcDesired
  show ((s.ecsServices.map _).find? _).map _ = _
  rw [find?_name_map _ _ (setDesired_fun_name n0 v) n]
  cases hf : s.ecsServices.find? (fun svc => svc.name == n) with
  | none => rfl
  | some svc =>
    have hn : svc.name = n := by simpa using List.find?_some hf
    have hne : ¬(svc.name = n0) := by rw [hn]; exact h
    simp [hne]

theorem svcDesired_setDesired_self (s : WorldState) (n0 : String) (v : Int)
    (h : s.ecsServices.any (fun svc => svc.name == n0) = true) :
    svcDesired (setDesired s n0 v) n0 = some v := by
  unfold svcDesired
  show ((s.ecsServices.map _).find? _).map _ = _
  rw [find?_name_map _ _ (setDesired_fun_name n0 v) n0]
  cases hf : s.ecsServices.find? (fun svc => svc.name == n0) with
  | none =>
    rw [List.find?_eq_none] at hf
    rcases (by simpa using h : ∃ svc ∈ s.ecsServices, svc.name = n0) with ⟨svc, hm, hn⟩
    exact absurd (by simpa using hn) (hf svc hm)
  | some svc =>
    have hn : svc.name = n0 := by simpa using List.find?_some hf
    simp [hn]

theorem reaperScaleDown_any (w : WorldState) (n0 : String) (b : Bool) (n : String) :
    (reaperScaleDown w n0 b).ecsServices.any (fun svc => svc.name == n) =
      w.ecsServices.any (fun svc => svc.name == n) := by
  unfold reaperScaleDown ecsUpdateDesired
  by_cases hb : b = true
  · rw [if_pos hb]
  · rw [if_neg hb]
    by_cases ha : w.ecsServices.any (fun svc => svc.name == n0) = true
    · rw [if_pos ha]
      exact setDesired_any w n0 0 n
    · rw [if_neg ha]

theorem reaperScaleDown_desired_ne (w : WorldState) (n0 : String) (b : Bool)
    (n : String) (h : n ≠ n0) :
    svcDesired (reaperScaleDown w n0 b) n = svcDesired w n := by
  unfold reaperScaleDown ecsUpdateDesired
  by_cases hb : b = true
  · rw [if_pos hb]
  · rw [if_neg hb]
    by_cases ha : w.ecsServices.any (fun svc => svc.name == n0) = true
    · rw [if_pos ha]
      exact svcDesired_setDesired_ne w n0 0 n h
    · rw [if_neg ha]

theorem reaperScaleDown_desired_self (w : WorldState) (n0 : String)
    (h : w.ecsServices.any (fun svc => svc.name == n0) = true) :
    svcDesired (reaperScaleDown w n0 false) n0 = some 0 := by
  unfold reaperScaleDown ecsUpdateDesired
  rw [if_neg (by simp), if_pos h]
  exact svcDesired_setDesired_self w n0 0 h

theorem tickFold_lastHit (failOracle : String → Bool) :
    ∀ (rids : List String) (env : ReaperEnv),
      ((rids.foldl (fun acc rid =>
        { world := reaperScaleDown acc.world ("router-" ++ rid) (failOracle rid),
          lastHit := acc.lastHit.filter (fun p => !(p.1 == rid)) }) env : ReaperEnv)).lastHit =
      env.lastHit.filter (fun p => !(rids.any (fun r => p.1 == r))) := by
  intro rids
  induction rids with
  | nil =>
    intro env
    simp
  | cons r rids ih =>
    intro env
    rw [List.foldl_cons, ih]
    show (env.lastHit.filter _).filter _ = _
    rw [List.filter_filter]
    apply List.filter_congr
    intro p _
    simp [List.any_cons]
    exact Bool.and_comm _ _

theorem tickFold_any (failOracle : String → Bool) :
    ∀ (rids : List String) (env : ReaperEnv) (n : String),
      ((rids.foldl (fun acc rid =>
        { world := reaperScaleDown acc.world ("router-" ++ rid) (failOracle rid),
          lastHit := acc.lastHit.filter (fun p => !(p.1 == rid)) }) env :
          ReaperEnv)).world.ecsServices.any (fun svc => svc.name == n) =
      env.world.ecsServices.any (fun svc => svc.name == n) := by
  intro rids
  induction rids with
  | nil => intro env n; rfl
  | cons r rids ih =>
    intro env n
    rw [List.foldl_cons, ih]
    exact reaperScaleDown_any _ _ _ n

theorem tickFold_desired_untouched (failOracle : String → Bool) :
    ∀ (rids : List String) (env : ReaperEnv) (n : String),
      (∀ r ∈ rids, "router-" ++ r ≠ n) →
      svcDesired ((rids.foldl (fun acc rid =>
        { world := reaperScaleDown acc.world ("router-" ++ rid) (failOracle rid),
          lastHit := acc.lastHit.filter (fun p => !(p.1 == rid)) }) env :
          ReaperEnv)).world n = svcDesired env.world n := by
  intro rids
  induction rids with
  | nil => intro env n _; rfl
  | cons r rids ih =>
    intro env n hr
    rw [List.foldl_cons, ih _ n (fun q hq => hr q (List.mem_cons_of_mem r hq))]
    exact reaperScaleDown_desired_ne _ _ _ n
      (fun heq => hr r (List.mem_cons_self r rids) heq.symm)

theorem tickFold_desired_stale (failOracle : String → Bool) :
    ∀ (l1 : List String) (l2 : List String) (rid : String) (env : ReaperEnv),
      env.world.ecsServices.any (fun svc => svc.name == ("router-" ++ rid)) = true →
      failOracle rid = false →
      (∀ r ∈ l2, r ≠ rid) →
      svcDesired (((l1 ++ rid :: l2).foldl (fun acc rid =>
        { world := reaperScaleDown acc.world ("router-" ++ rid) (failOracle rid),
          lastHit := acc.lastHit.filter (fun p => !(p.1 == rid)) }) env :
          ReaperEnv)).world ("router-" ++ rid) = some 0 := by
  intro l1
  induction l1 with
  | nil =>
    intro l2 rid env hany hfail hl2
    rw [List.nil_append, List.foldl_cons]
    rw [tickFold_desired_untouched failOracle l2 _ ("router-" ++ rid)
      (fun r hr heq => hl2 r hr (routerName_inj r rid heq))]
    show svcDesired (reaperScaleDown env.world ("router-" ++ rid) (failOracle rid))
      ("router-" ++ rid) = some 0
    rw [hfail]
    exact reaperScaleDown_desired_self env.world ("router-" ++ rid) hany
  | cons q l1 ih =>
    intro l2 rid env hany hfail hl2
    rw [List.cons_append, List.foldl_cons]
    apply ih l2 rid _ _ hfail hl2
    show (reaperScaleDown env.world ("router-" ++ q) (failOracle q)).ecsServices.any
      (fun svc => svc.name == ("router-" ++ rid)) = true
    rw [reaperScaleDown_any]
    exact hany

theorem trackGet_cons (p : String × ℚ) (d : List (String × ℚ)) (k : String) :
    trackGet (p :: d) k = if p.1 = k then some p.2 else trackGet d k := by
  by_cases h : p.1 = k <;> simp [trackGet, List.find?_cons, h]

theorem trackGet_of_mem_nodup (l : List (String × ℚ)) (k : String) (x : ℚ)
    (hnodup : (l.map Prod.fst).Nodup) (hm : (k, x) ∈ l) :
    trackGet l k = some x := by
  induction l with
  | nil => simp at hm
  | cons p l ih =>
    rcases List.mem_cons.mp hm with hp | hp
    · rw [← hp, trackGet_cons, if_pos rfl]
    · have hk : k ∈ l.map Prod.fst := List.mem_map.mpr ⟨(k, x), hp, rfl⟩
      have hp1 : p.1 ≠ k := by
        intro he
        exact (List.nodup_cons.mp hnodup).1 (he ▸ hk)
      rw [trackGet_cons, if_neg hp1]
      exact ih (List.nodup_cons.mp hnodup).2 hp

theorem trackGet_filter (l : List (String × ℚ)) (q : String × ℚ → Bool) (k : String)
    (hq : ∀ p ∈ l, p.1 = k → q p = true) :
    trackGet (l.filter q) k = trackGet l k := by
  induction l with
  | nil => rfl
  | cons p l ih =>
    by_cases hp : p.1 = k
    · rw [List.filter_cons, if_pos (hq p (List.mem_cons_self p l) hp),
        trackGet_cons, trackGet_cons, if_pos hp, if_pos hp]
    · have ihl := ih (fun r hr hk => hq r (List.mem_cons_of_mem p hr) hk)
      rw [List.filter_cons]
      by_cases hqp : q p = true
      · rw [if_pos hqp, trackGet_cons, trackGet_cons, if_neg hp, if_neg hp, ihl]
      · rw [if_neg hqp, trackGet_cons, if_neg hp, ihl]

theorem trackGet_filter_none (l : List (String × ℚ)) (q : String × ℚ → Bool)
    (k : String) (hq : ∀ p ∈ l, p.1 = k → q p = false) :
    trackGet (l.filter q) k = none := by
  rw [show (none : Option ℚ) = (List.find? (fun p => p.1 == k) (l.filter q)).map
    Prod.snd from ?_]
  · rfl
  · rw [List.find?_eq_none.mpr]
    · rfl
    · intro p hp
      have h1 := List.of_mem_filter hp
      intro hk
      rw [hq p (List.mem_of_mem_filter hp) (by simpa using hk)] at h1
      exact Bool.false_ne_true h1

theorem trackGet_mem (l : List (String × ℚ)) (k : String) (x : ℚ)
    (h : trackGet l k = some x) : (k, x) ∈ l := by
  unfold trackGet at h
  cases hf : l.find? (fun p => p.1 == k) with
  | none => rw [hf] at h; simp at h
  | some p =>
    rw [hf] at h
    have hp1 : p.1 = k := by simpa using List.find?_some hf
    have hp2 : p.2 = x := by simpa using h
    have := List.mem_of_find?_eq_some hf
    rw [← hp1, ← hp2]
    simpa using this

/- ===================================================================
   Claim C8: the idle-reaper tick.
   =================================================================== -/

/-- Claim C8: on one tick, a tracked scenario whose last access is strictly
    older than the idle window has its service scaled to zero (when the
    update call does not fail and the service exists) and its entry dropped
    from tracking; a scenario accessed within the window keeps its tracking
    entry and its service desired count untouched by the tick. -/
theorem idleReaper_tick_behavior (now idleSecs : ℚ) (failOracle : String → Bool)
    (env : ReaperEnv) (rid : String) (ts : ℚ)
    (hnodup : (env.lastHit.map Prod.fst).Nodup)
    (htrack : trackGet env.lastHit rid = some ts) :
    (idleSecs < now - ts → failOracle rid = false →
      env.world.ecsServices.any (fun svc => svc.name == ("router-" ++ rid)) = true →
      svcDesired (idleReaperTick now idleSecs failOracle env).world
          ("router-" ++ rid) = some 0 ∧
      trackGet (idleReaperTick now idleSecs failOracle env).lastHit rid = none)
    ∧ (now - ts ≤ idleSecs →
      trackGet (idleReaperTick now idleSecs failOracle env).lastHit rid = some ts ∧
      svcDesired (idleReaperTick now idleSecs failOracle env).world
          ("router-" ++ rid) = svcDesired env.world ("router-" ++ rid)) := by
  have hmem : (rid, ts) ∈ env.lastHit := trackGet_mem _ _ _ htrack
  have hsub : ((env.lastHit.filter (fun p => idleSecs < now - p.2)).map
      Prod.fst).Sublist (env.lastHit.map Prod.fst) :=
    (List.filter_sublist _).map Prod.fst
  have hstalenodup : ((env.lastHit.filter (fun p => idleSecs < now - p.2)).map
      Prod.fst).Nodup := hnodup.sublist hsub
  constructor
  · intro hstale hfail hany
    have hmemf : (rid, ts) ∈ env.lastHit.filter (fun p => idleSecs < now - p.2) :=
      List.mem_filter.mpr ⟨hmem, by simpa using hstale⟩
    have hin : rid ∈ (env.lastHit.filter (fun p => idleSecs < now - p.2)).map
        Prod.fst := List.mem_map.mpr ⟨(rid, ts), hmemf, rfl⟩
    rcases List.append_of_mem hin with ⟨l1, l2, hsplit⟩
    have hl2 : ∀ r ∈ l2, r ≠ rid := by
      rw [hsplit] at hstalenodup
      rcases List.nodup_append.mp hstalenodup with ⟨_, hn2, _⟩
      intro r hr he
      exact (List.nodup_cons.mp hn2).1 (he ▸ hr)
    constructor
    · simp only [idleReaperTick]
      rw [hsplit]
      exact tickFold_desired_stale failOracle l1 l2 rid env hany hfail hl2
    · simp only [idleReaperTick]
      rw [tickFold_lastHit]
      apply trackGet_filter_none
      intro p _ hp
      have hpany : ((env.lastHit.filter (fun p => idleSecs < now - p.2)).map
          Prod.fst).any (fun r => p.1 == r) = true :=
        List.any_eq_true.mpr ⟨rid, hin, by simpa using hp⟩
      rw [hpany]
      rfl
  · intro hfresh
    have hnotin : rid ∉ (env.lastHit.filter (fun p => idleSecs < now - p.2)).map
        Prod.fst := by
      intro hin
      rcases List.mem_map.mp hin with ⟨p, hpf, hfst⟩
      have hpl : p ∈ env.lastHit := List.mem_of_mem_filter hpf
      have hpcond : idleSecs < now - p.2 := by
        simpa using List.of_mem_filter hpf
      have hpair : (rid, p.2) ∈ env.lastHit := by
        have : p = (rid, p.2) := by
          rw [← hfst]
        rw [← this]
        exact hpl
      have := trackGet_of_mem_nodup env.lastHit rid p.2 hnodup hpair
      rw [htrack] at this
      have hts : ts = p.2 := by simpa using this
      rw [← hts] at hpcond
      linarith
    have hanyfalse : ∀ p : String × ℚ, p.1 = rid →
        ((env.lastHit.filter (fun p => idleSecs < now - p.2)).map
          Prod.fst).any (fun r => p.1 == r) = false := by
      intro p hp
      cases hca : ((env.lastHit.filter (fun p => idleSecs < now - p.2)).map
          Prod.fst).any (fun r => p.1 == r) with
      | false => rfl
      | true =>
        rcases List.any_eq_true.mp hca with ⟨r, hr, hrq⟩
        have : p.1 = r := by simpa using hrq
        rw [hp] at this
        exact absurd (this ▸ hr) hnotin
    constructor
    · simp only [idleReaperTick]
      rw [tickFold_lastHit]
      rw [trackGet_filter _ _ _ (by
        intro p _ hp
        rw [hanyfalse p hp]
        rfl)]
      exact htrack
    · simp only [idleReaperTick]
      apply tickFold_desired_untouched
      intro r hr he
      have : r = rid := routerName_inj r rid he
      exact hnotin (this ▸ hr)

/-- Witness for C8: with now = 2000 and an 1800-second window, scenario "a"
    (last access 0) is scaled to zero and dropped, scenario "b" (last access
    1999) is untouched. -/
theorem idleReaper_tick_behavior_witness :
    (svcDesired (idleReaperTick 2000 1800 (fun _ => false)
        (ReaperEnv.mk (WorldState.mk "ns" [] 0 (fun _ => 1)
          [EcsSvc.mk "router-a" "ACTIVE" "td" 1, EcsSvc.mk "router-b" "ACTIVE" "td" 1])
          [("a", 0), ("b", 1999)])).world ("router-" ++ "a") = some 0 ∧
      trackGet (idleReaperTick 2000 1800 (fun _ => false)
        (ReaperEnv.mk (WorldState.mk "ns" [] 0 (fun _ => 1)
          [EcsSvc.mk "router-a" "ACTIVE" "td" 1, EcsSvc.mk "router-b" "ACTIVE" "td" 1])
          [("a", 0), ("b", 1999)])).lastHit "a" = none)
    ∧ (trackGet (idleReaperTick 2000 1800 (fun _ => false)
        (ReaperEnv.mk (WorldState.mk "ns" [] 0 (fun _ => 1)
          [EcsSvc.mk "router-a" "ACTIVE" "td" 1, EcsSvc.mk "router-b" "ACTIVE" "td" 1])
          [("a", 0), ("b", 1999)])).lastHit "b" = some 1999 ∧
      svcDesired (idleReaperTick 2000 1800 (fun _ => false)
        (ReaperEnv.mk (WorldState.mk "ns" [] 0 (fun _ => 1)
          [EcsSvc.mk "router-a" "ACTIVE" "td" 1, EcsSvc.mk "router-b" "ACTIVE" "td" 1])
          [("a", 0), ("b", 1999)])).world ("router-" ++ "b") =
        svcDesired (ReaperEnv.mk (WorldState.mk "ns" [] 0 (fun _ => 1)
          [EcsSvc.mk "router-a" "ACTIVE" "td" 1, EcsSvc.mk "router-b" "ACTIVE" "td" 1])
          [("a", 0), ("b", 1999)]).world ("router-" ++ "b")) :=
  ⟨(idleReaper_tick_behavior 2000 1800 (fun _ => false)
      (ReaperEnv.mk (WorldState.mk "ns" [] 0 (fun _ => 1)
        [EcsSvc.mk "router-a" "ACTIVE" "td" 1, EcsSvc.mk "router-b" "ACTIVE" "td" 1])
        [("a", 0), ("b", 1999)]) "a" 0 (by decide) rfl).1
      (by norm_num) rfl rfl,
   (idleReaper_tick_behavior 2000 1800 (fun _ => false)
      (ReaperEnv.mk (WorldState.mk "ns" [] 0 (fun _ => 1)
        [EcsSvc.mk "router-a" "ACTIVE" "td" 1, EcsSvc.mk "router-b" "ACTIVE" "td" 1])
        [("a", 0), ("b", 1999)]) "b" 1999 (by decide) rfl).2
      (by norm_num)⟩

/- ===================================================================
   Helper lemmas: ensure_router_service state transitions.
   =================================================================== -/

theorem cmEnsure_fresh (s : WorldState) (n : String)
    (h : s.cmServices.any (fun p => p.1 == n) = false) :
    cmEnsureService s n =
      ((some ("arn:aws:servicediscovery:service/" ++ toString s.cmCounter), false),
       { s with
         cmServices := (s.cmServices ++
            [(n, "arn:aws:servicediscovery:service/" ++ toString s.cmCounter)]),
         cmCounter := s.cmCounter + 1 }) := by
  unfold cmEnsureService
  rw [h]
  rfl

theorem cmEnsure_existing (s : WorldState) (n : String)
    (h : s.cmServices.any (fun p => p.1 == n) = true) :
    cmEnsureService s n =
      (((s.cmServices.find? (fun p => p.1 == n)).map Prod.snd, true), s) := by
  unfold cmEnsureService
  rw [h]
  rfl

theorem applyGuard_cases (s : WorldState) (name target : String) (autoStop : Bool)
    (desired : Int) (threshold : Nat) (obs : List GuardObs) (updFails : Bool) :
    applyGuard s name target autoStop desired threshold obs updFails = s ∨
    applyGuard s name target autoStop desired threshold obs updFails =
      setDesired s name 0 := by
  unfold applyGuard
  by_cases hc : (autoStop && decide (0 < desired)) = true
  · rw [if_pos hc]
    cases guardLoop target desired threshold obs 0 with
    | reachedDesired => exact Or.inl rfl
    | windowExpired => exact Or.inl rfl
    | scaledToZero =>
      cases updFails with
      | true => exact Or.inl rfl
      | false => exact Or.inr rfl
  · rw [if_neg hc]
    exact Or.inl rfl

theorem setDesired_fun_status (n0 : String) (v : Int) (svc : EcsSvc) :
    ((if svc.name == n0 then { svc with desiredCount := v } else svc) :
      EcsSvc).status = svc.status := by
  by_cases h : svc.name = n0 <;> simp [h]

theorem setDesired_fun_td (n0 : String) (v : Int) (svc : EcsSvc) :
    ((if svc.name == n0 then { svc with desiredCount := v } else svc) :
      EcsSvc).taskDefinition = svc.taskDefinition := by
  by_cases h : svc.name = n0 <;> simp [h]

theorem setTd_fun_name (n0 td : String) (v : Int) (svc : EcsSvc) :
    ((if svc.name == n0 then { svc with taskDefinition := td, desiredCount := v }
      else svc) : EcsSvc).name = svc.name := by
  by_cases h : svc.name = n0 <;> simp [h]

theorem setTd_fun_status (n0 td : String) (v : Int) (svc : EcsSvc) :
    ((if svc.name == n0 then { svc with taskDefinition := td, desiredCount := v }
      else svc) : EcsSvc).status = svc.status := by
  by_cases h : svc.name = n0 <;> simp [h]

theorem count_name_map (l : List EcsSvc) (f : EcsSvc → EcsSvc)
    (hf : ∀ svc, (f svc).name = svc.name) (n : String) :
    ((l.map f).filter (fun svc => svc.name == n)).length =
      (l.filter (fun svc => svc.name == n)).length := by
  induction l with
  | nil => rfl
  | cons a l ih =>
    rw [List.map_cons]
    have hfa : ((f a).name == n) = (a.name == n) := by rw [hf a]
    rw [List.filter_cons, List.filter_cons, hfa]
    by_cases h : (a.name == n) = true
    · rw [if_pos h, if_pos h]
      simp [ih]
    · rw [if_neg h, if_neg h]
      exact ih

theorem allNamed_map (g : EcsSvc → String) (l : List EcsSvc) (f : EcsSvc → EcsSvc)
    (hf : ∀ svc, (f svc).name = svc.name ∧ g (f svc) = g svc)
    (n x : String) (h : ∀ svc ∈ l, svc.name = n → g svc = x) :
    ∀ svc ∈ l.map f, svc.name = n → g svc = x := by
  intro svc hm hn
  rcases List.mem_map.mp hm with ⟨svc0, hm0, heq⟩
  rw [← heq, (hf svc0).2]
  exact h svc0 hm0 (by rw [← (hf svc0).1, heq]; exact hn)

theorem countEcs_setDesired (s : WorldState) (n0 : String) (v : Int) (n : String) :
    countEcs (setDesired s n0 v) n = countEcs s n := by
  unfold countEcs
  show ((s.ecsServices.map _).filter _).length = _
  exact count_name_map _ _ (setDesired_fun_name n0 v) n

theorem countEcs_setTdAndDesired (s : WorldState) (n0 td : String) (v : Int)
    (n : String) : countEcs (setTdAndDesired s n0 td v) n = countEcs s n := by
  unfold countEcs
  show ((s.ecsServices.map _).filter _).length = _
  exact count_name_map _ _ (setTd_fun_name n0 td v) n

theorem countEcs_create_self (s : WorldState) (n td : String) (v : Int) :
    countEcs (createEcsService s n td v) n = countEcs s n + 1 := by
  unfold countEcs createEcsService
  show ((s.ecsServices ++ [_]).filter _).length = _
  rw [List.filter_append, List.length_append]
  simp

theorem countCm_append_self (s : WorldState) (cm2 : List (String × String))
    (n : String) :
    countCm { s with cmServices := (s.cmServices ++ cm2), cmCounter := s.cmCounter + 1 } n =
      countCm s n + (cm2.filter (fun p => p.1 == n)).length := by
  unfold countCm
  show ((s.cmServices ++ cm2).filter _).length = _
  rw [List.filter_append, List.length_append]

theorem applyGuard_nsName (s : WorldState) (name target : String) (a : Bool)
    (d : Int) (t : Nat) (obs : List GuardObs) (uf : Bool) :
    (applyGuard s name target a d t obs uf).nsName = s.nsName := by
  rcases applyGuard_cases s name target a d t obs uf with hg | hg <;> rw [hg]
  rfl

theorem applyGuard_cmServices (s : WorldState) (name target : String) (a : Bool)
    (d : Int) (t : Nat) (obs : List GuardObs) (uf : Bool) :
    (applyGuard s name target a d t obs uf).cmServices = s.cmServices := by
  rcases applyGuard_cases s name target a d t obs uf with hg | hg <;> rw [hg]
  rfl

theorem applyGuard_tdRev (s : WorldState) (name target : String) (a : Bool)
    (d : Int) (t : Nat) (obs : List GuardObs) (uf : Bool) :
    (applyGuard s name target a d t obs uf).tdRev = s.tdRev := by
  rcases applyGuard_cases s name target a d t obs uf with hg | hg <;> rw [hg]
  rfl

theorem applyGuard_countEcs (s : WorldState) (name target : String) (a : Bool)
    (d : Int) (t : Nat) (obs : List GuardObs) (uf : Bool) (n : String) :
    countEcs (applyGuard s name target a d t obs uf) n = countEcs s n := by
  rcases applyGuard_cases s name target a d t obs uf with hg | hg <;> rw [hg]
  exact countEcs_setDesired s name 0 n

theorem applyGuard_allNamedTd (s : WorldState) (name target : String) (a : Bool)
    (d : Int) (t : Nat) (obs : List GuardObs) (uf : Bool) (n td : String)
    (h : ∀ svc ∈ s.ecsServices, svc.name = n → svc.taskDefinition = td) :
    ∀ svc ∈ (applyGuard s name target a d t obs uf).ecsServices, svc.name = n →
      svc.taskDefinition = td := by
  rcases applyGuard_cases s name target a d t obs uf with hg | hg <;> rw [hg]
  · exact h
  · exact allNamed_map (fun svc => svc.taskDefinition) s.ecsServices _
      (fun svc => ⟨setDesired_fun_name name 0 svc, setDesired_fun_td name 0 svc⟩)
      n td h

theorem applyGuard_allNamedStatus (s : WorldState) (name target : String) (a : Bool)
    (d : Int) (t : Nat) (obs : List GuardObs) (uf : Bool) (n x : String)
    (h : ∀ svc ∈ s.ecsServices, svc.name = n → svc.status = x) :
    ∀ svc ∈ (applyGuard s name target a d t obs uf).ecsServices, svc.name = n →
      svc.status = x := by
  rcases applyGuard_cases s name target a d t obs uf with hg | hg <;> rw [hg]
  · exact h
  · exact allNamed_map (fun svc => svc.status) s.ecsServices _
      (fun svc => ⟨setDesired_fun_name name 0 svc, setDesired_fun_status name 0 svc⟩)
      n x h

theorem allNamedTd_setTdAndDesired (s : WorldState) (n td : String) (v : Int) :
    ∀ svc ∈ (setTdAndDesired s n td v).ecsServices, svc.name = n →
      svc.taskDefinition = td := by
  intro svc hm hn
  rcases List.mem_map.mp hm with ⟨svc0, hm0, heq⟩
  by_cases h0 : svc0.name = n
  · rw [← heq]
    simp [h0]
  · have hsame : svc = svc0 := by rw [← heq]; simp [h0]
    rw [hsame] at hn
    exact absurd hn h0

theorem allNamedTd_create (s : WorldState) (n td : String) (v : Int)
    (h : ∀ svc ∈ s.ecsServices, ¬(svc.name = n)) :
    ∀ svc ∈ (createEcsService s n td v).ecsServices, svc.name = n →
      svc.taskDefinition = td := by
  intro svc hm hn
  rcases List.mem_append.mp hm with hm2 | hm2
  · exact absurd hn (h svc hm2)
  · simp at hm2
    rw [hm2]

theorem allNamedStatus_create (s : WorldState) (n td : String) (v : Int)
    (h : ∀ svc ∈ s.ecsServices, ¬(svc.name = n)) :
    ∀ svc ∈ (createEcsService s n td v).ecsServices, svc.name = n →
      svc.status = "ACTIVE" := by
  intro svc hm hn
  rcases List.mem_append.mp hm with hm2 | hm2
  · exact absurd hn (h svc hm2)
  · simp at hm2
    rw [hm2]

theorem allNamedStatus_setTdAndDesired (s : WorldState) (n0 td : String) (v : Int)
    (n x : String) (h : ∀ svc ∈ s.ecsServices, svc.name = n → svc.status = x) :
    ∀ svc ∈ (setTdAndDesired s n0 td v).ecsServices, svc.name = n →
      svc.status = x := by
  exact allNamed_map (fun svc => svc.status) s.ecsServices _
    (fun svc => ⟨setTd_fun_name n0 td v svc, setTd_fun_status n0 td v svc⟩) n x h

theorem svcPhase_nsName (b : Bool) (s : WorldState) (n td : String) (v : Int) :
    ((if b then setTdAndDesired s n td v else createEcsService s n td v) :
      WorldState).nsName = s.nsName := by
  cases b <;> rfl

theorem cm_any_false_of_count_zero (s : WorldState) (n : String)
    (h : countCm s n = 0) : s.cmServices.any (fun p => p.1 == n) = false := by
  unfold countCm at h
  rw [List.length_eq_zero, List.filter_eq_nil_iff] at h
  cases ha : s.cmServices.any (fun p => p.1 == n) with
  | false => rfl
  | true =>
    rcases List.any_eq_true.mp ha with ⟨p, hp, hpq⟩
    exact absurd hpq (h p hp)

theorem cm_any_true_of_count_pos (s : WorldState) (n : String)
    (h : 0 < countCm s n) : s.cmServices.any (fun p => p.1 == n) = true := by
  unfold countCm at h
  obtain ⟨p, hp⟩ := List.exists_mem_of_length_pos h
  have h1 := List.mem_of_mem_filter hp
  have h2 := List.of_mem_filter hp
  exact List.any_eq_true.mpr ⟨p, h1, h2⟩

theorem ecs_all_not_of_count_zero (s : WorldState) (n : String)
    (h : countEcs s n = 0) : ∀ svc ∈ s.ecsServices, ¬(svc.name = n) := by
  unfold countEcs at h
  rw [List.length_eq_zero, List.filter_eq_nil_iff] at h
  intro svc hm hn
  exact h svc hm (by simpa using hn)

theorem ecs_any_of_count_pos (s : WorldState) (n : String)
    (h : 0 < countEcs s n) : s.ecsServices.any (fun svc => svc.name == n) = true := by
  unfold countEcs at h
  obtain ⟨svc, hsvc⟩ := List.exists_mem_of_length_pos h
  have h1 := List.mem_of_mem_filter hsvc
  have h2 := List.of_mem_filter hsvc
  exact List.any_eq_true.mpr ⟨svc, h1, h2⟩

theorem ensure_fresh_eq (s : WorldState) (svcPfx scenarioId taskFamily : String)
    (image : Option String) (dc : Int) (auto : Bool) (thr : Nat)
    (obs : List GuardObs) (uf : Bool)
    (himg : pyTruthyStr image = true)
    (htd : ¬(s.tdRev taskFamily = 0))
    (hcm : s.cmServices.any (fun p => p.1 == (svcPfx ++ "-" ++ scenarioId)) = false)
    (hecs : ∀ svc ∈ s.ecsServices, ¬(svc.name = (svcPfx ++ "-" ++ scenarioId))) :
    ensureRouterService s svcPfx scenarioId taskFamily image dc auto thr obs uf =
      .ok ⟨applyGuard (freshEnsureState s (svcPfx ++ "-" ++ scenarioId) taskFamily dc)
             (svcPfx ++ "-" ++ scenarioId) (tdArn taskFamily (s.tdRev taskFamily + 1))
             auto dc thr obs uf,
           (svcPfx ++ "-" ++ scenarioId) ++ "." ++
             (applyGuard (freshEnsureState s (svcPfx ++ "-" ++ scenarioId) taskFamily dc)
               (svcPfx ++ "-" ++ scenarioId) (tdArn taskFamily (s.tdRev taskFamily + 1))
               auto dc thr obs uf).nsName,
           false, false, tdArn taskFamily (s.tdRev taskFamily + 1)⟩ := by
  have hfind : s.ecsServices.find?
      (fun svc => svc.name == (svcPfx ++ "-" ++ scenarioId)) = none := by
    rw [List.find?_eq_none]
    intro svc hm
    simpa using hecs svc hm
  simp only [ensureRouterService]
  rw [if_pos himg, cmEnsure_fresh s _ hcm]
  dsimp only
  rw [if_neg htd]
  simp only [registerTdRevision]
  rw [hfind]
  rfl

theorem ensure_existing_eq (s : WorldState) (svcPfx scenarioId taskFamily : String)
    (image : Option String) (dc : Int) (auto : Bool) (thr : Nat)
    (obs : List GuardObs) (uf : Bool) (svc2 : EcsSvc)
    (himg : pyTruthyStr image = true)
    (htd : ¬(s.tdRev taskFamily = 0))
    (hcm : s.cmServices.any (fun p => p.1 == (svcPfx ++ "-" ++ scenarioId)) = true)
    (hfound : s.ecsServices.find?
      (fun svc => svc.name == (svcPfx ++ "-" ++ scenarioId)) = some svc2)
    (hst : svc2.status = "ACTIVE") :
    ensureRouterService s svcPfx scenarioId taskFamily image dc auto thr obs uf =
      .ok ⟨applyGuard (updEnsureState s (svcPfx ++ "-" ++ scenarioId) taskFamily dc)
             (svcPfx ++ "-" ++ scenarioId) (tdArn taskFamily (s.tdRev taskFamily + 1))
             auto dc thr obs uf,
           (svcPfx ++ "-" ++ scenarioId) ++ "." ++
             (applyGuard (updEnsureState s (svcPfx ++ "-" ++ scenarioId) taskFamily dc)
               (svcPfx ++ "-" ++ scenarioId) (tdArn taskFamily (s.tdRev taskFamily + 1))
               auto dc thr obs uf).nsName,
           true, true, tdArn taskFamily (s.tdRev taskFamily + 1)⟩ := by
  simp only [ensureRouterService]
  rw [if_pos himg, cmEnsure_existing s _ hcm]
  dsimp only
  rw [if_neg htd]
  simp only [registerTdRevision]
  rw [hfound]
  simp only [Option.map_some', Option.getD_some, hst]
  rfl

theorem guardedFresh_props (s : WorldState) (n fam : String) (dc : Int)
    (auto : Bool) (thr : Nat) (obs : List GuardObs) (uf : Bool)
    (hecs : ∀ svc ∈ s.ecsServices, ¬(svc.name = n)) :
    (applyGuard (freshEnsureState s n fam dc) n (tdArn fam (s.tdRev fam + 1))
        auto dc thr obs uf).nsName = s.nsName ∧
    countCm (applyGuard (freshEnsureState s n fam dc) n (tdArn fam (s.tdRev fam + 1))
        auto dc thr obs uf) n = countCm s n + 1 ∧
    (applyGuard (freshEnsureState s n fam dc) n (tdArn fam (s.tdRev fam + 1))
        auto dc thr obs uf).tdRev fam = s.tdRev fam + 1 ∧
    countEcs (applyGuard (freshEnsureState s n fam dc) n (tdArn fam (s.tdRev fam + 1))
        auto dc thr obs uf) n = countEcs s n + 1 ∧
    (∀ svc ∈ (applyGuard (freshEnsureState s n fam dc) n (tdArn fam (s.tdRev fam + 1))
        auto dc thr obs uf).ecsServices, svc.name = n →
      svc.taskDefinition = tdArn fam (s.tdRev fam + 1)) ∧
    (∀ svc ∈ (applyGuard (freshEnsureState s n fam dc) n (tdArn fam (s.tdRev fam + 1))
        auto dc thr obs uf).ecsServices, svc.name = n → svc.status = "ACTIVE") := by
  refine ⟨?_, ?_, ?_, ?_, ?_, ?_⟩
  · rw [applyGuard_nsName]
    rfl
  · unfold countCm
    rw [applyGuard_cmServices]
    show ((s.cmServices ++ [_]).filter _).length = _
    rw [List.filter_append, List.length_append]
    simp [countCm]
  · rw [applyGuard_tdRev]
    show (if (fam == fam) = true then s.tdRev fam + 1 else s.tdRev fam) = _
    simp
  · rw [applyGuard_countEcs]
    unfold freshEnsureState
    rw [countEcs_create_self]
    rfl
  · apply applyGuard_allNamedTd
    unfold freshEnsureState
    exact allNamedTd_create _ _ _ _ hecs
  · apply applyGuard_allNamedStatus
    unfold freshEnsureState
    exact allNamedStatus_create _ _ _ _ hecs

theorem guardedUpd_props (s : WorldState) (n fam : String) (dc : Int)
    (auto : Bool) (thr : Nat) (obs : List GuardObs) (uf : Bool)
    (hstatus : ∀ svc ∈ s.ecsServices, svc.name = n → svc.status = "ACTIVE") :
    (applyGuard (updEnsureState s n fam dc) n (tdArn fam (s.tdRev fam + 1))
        auto dc thr obs uf).nsName = s.nsName ∧
    countCm (applyGuard (updEnsureState s n fam dc) n (tdArn fam (s.tdRev fam + 1))
        auto dc thr obs uf) n = countCm s n ∧
    (applyGuard (updEnsureState s n fam dc) n (tdArn fam (s.tdRev fam + 1))
        auto dc thr obs uf).tdRev fam = s.tdRev fam + 1 ∧
    countEcs (applyGuard (updEnsureState s n fam dc) n (tdArn fam (s.tdRev fam + 1))
        auto dc thr obs uf) n = countEcs s n ∧
    (∀ svc ∈ (applyGuard (updEnsureState s n fam dc) n (tdArn fam (s.tdRev fam + 1))
        auto dc thr obs uf).ecsServices, svc.name = n →
      svc.taskDefinition = tdArn fam (s.tdRev fam + 1)) ∧
    (∀ svc ∈ (applyGuard (updEnsureState s n fam dc) n (tdArn fam (s.tdRev fam + 1))
        auto dc thr obs uf).ecsServices, svc.name = n → svc.status = "ACTIVE") := by
  refine ⟨?_, ?_, ?_, ?_, ?_, ?_⟩
  · rw [applyGuard_nsName]
    rfl
  · unfold countCm
    rw [applyGuard_cmServices]
    rfl
  · rw [applyGuard_tdRev]
    show (if (fam == fam) = true then s.tdRev fam + 1 else s.tdRev fam) = _
    simp
  · rw [applyGuard_countEcs]
    unfold updEnsureState
    rw [countEcs_setTdAndDesired]
    rfl
  · apply applyGuard_allNamedTd
    unfold updEnsureState
    exact allNamedTd_setTdAndDesired _ _ _ _
  · apply applyGuard_allNamedStatus
    unfold updEnsureState
    apply allNamedStatus_setTdAndDesired
    exact hstatus

theorem ensure_on_fresh (s0 : WorldState) (svcPfx scenarioId taskFamily : String)
    (image : Option String) (dc : Int) (auto : Bool) (thr : Nat)
    (obs : List GuardObs) (uf : Bool)
    (himg : pyTruthyStr image = true)
    (htd : ¬(s0.tdRev taskFamily = 0))
    (hcm0 : countCm s0 (svcPfx ++ "-" ++ scenarioId) = 0)
    (hecs0 : countEcs s0 (svcPfx ++ "-" ++ scenarioId) = 0) :
    ∃ out1 : EnsureOutcome,
      ensureRouterService s0 svcPfx scenarioId taskFamily image dc auto thr obs uf =
        .ok out1 ∧
      out1.usedUpdatePath = false ∧
      out1.cmReused = false ∧
      out1.dns = (svcPfx ++ "-" ++ scenarioId) ++ "." ++ s0.nsName ∧
      out1.state.nsName = s0.nsName ∧
      countEcs out1.state (svcPfx ++ "-" ++ scenarioId) = 1 ∧
      countCm out1.state (svcPfx ++ "-" ++ scenarioId) = 1 ∧
      out1.state.tdRev taskFamily = s0.tdRev taskFamily + 1 ∧
      (∀ svc ∈ out1.state.ecsServices, svc.name = (svcPfx ++ "-" ++ scenarioId) →
        svc.status = "ACTIVE") := by
  have hcma := cm_any_false_of_count_zero s0 _ hcm0
  have hecsa := ecs_all_not_of_count_zero s0 _ hecs0
  have heq1 := ensure_fresh_eq s0 svcPfx scenarioId taskFamily image dc auto thr
    obs uf himg htd hcma hecsa
  obtain ⟨hns1, hcm1, htd1, hecs1, _, hstat1⟩ :=
    guardedFresh_props s0 (svcPfx ++ "-" ++ scenarioId) taskFamily dc auto thr
      obs uf hecsa
  apply Exists.intro
  refine ⟨heq1, rfl, rfl, ?_, ?_, ?_, ?_, ?_, ?_⟩
  · dsimp only
    rw [hns1]
  · exact hns1
  · dsimp only
    rw [hecs1, hecs0]
  · dsimp only
    rw [hcm1, hcm0]
  · exact htd1
  · exact hstat1

theorem ensure_after_active (s1 : WorldState) (svcPfx scenarioId taskFamily : String)
    (image : Option String) (dc : Int) (auto : Bool) (thr : Nat)
    (obs : List GuardObs) (uf : Bool)
    (himg : pyTruthyStr image = true)
    (htdpos : ¬(s1.tdRev taskFamily = 0))
    (hcmpos : 0 < countCm s1 (svcPfx ++ "-" ++ scenarioId))
    (hecspos : 0 < countEcs s1 (svcPfx ++ "-" ++ scenarioId))
    (hstatus : ∀ svc ∈ s1.ecsServices, svc.name = (svcPfx ++ "-" ++ scenarioId) →
      svc.status = "ACTIVE") :
    ∃ out2 : EnsureOutcome,
      ensureRouterService s1 svcPfx scenarioId taskFamily image dc auto thr obs uf =
        .ok out2 ∧
      out2.usedUpdatePath = true ∧
      out2.cmReused = true ∧
      out2.dns = (svcPfx ++ "-" ++ scenarioId) ++ "." ++ s1.nsName ∧
      countEcs out2.state (svcPfx ++ "-" ++ scenarioId) =
        countEcs s1 (svcPfx ++ "-" ++ scenarioId) ∧
      countCm out2.state (svcPfx ++ "-" ++ scenarioId) =
        countCm s1 (svcPfx ++ "-" ++ scenarioId) ∧
      out2.state.tdRev taskFamily = s1.tdRev taskFamily + 1 ∧
      (∀ svc ∈ out2.state.ecsServices, svc.name = (svcPfx ++ "-" ++ scenarioId) →
        svc.taskDefinition = tdArn taskFamily (out2.state.tdRev taskFamily)) := by
  have hcma := cm_any_true_of_count_pos s1 _ hcmpos
  have hexfind : ∃ svc2, s1.ecsServices.find?
      (fun svc => svc.name == (svcPfx ++ "-" ++ scenarioId)) = some svc2 := by
    have hany := ecs_any_of_count_pos s1 _ hecspos
    rcases List.any_eq_true.mp hany with ⟨svc, hmem, hname⟩
    cases hf : s1.ecsServices.find?
        (fun svc => svc.name == (svcPfx ++ "-" ++ scenarioId)) with
    | some svc2 => exact ⟨svc2, rfl⟩
    | none =>
      rw [List.find?_eq_none] at hf
      exact absurd hname (hf svc hmem)
  obtain ⟨svc2, hfound⟩ := hexfind
  have hname2 : svc2.name = (svcPfx ++ "-" ++ scenarioId) := by
    simpa using List.find?_some hfound
  have hmem2 : svc2 ∈ s1.ecsServices := List.mem_of_find?_eq_some hfound
  have hst2 : svc2.status = "ACTIVE" := hstatus svc2 hmem2 hname2
  have heq2 := ensure_existing_eq s1 svcPfx scenarioId taskFamily image dc auto thr
    obs uf svc2 himg htdpos hcma hfound hst2
  obtain ⟨hns2, hcm2, htd2, hecs2, htdall2, _⟩ :=
    guardedUpd_props s1 (svcPfx ++ "-" ++ scenarioId) taskFamily dc auto thr
      obs uf hstatus
  apply Exists.intro
  refine ⟨heq2, rfl, rfl, ?_, ?_, ?_, ?_, ?_⟩
  · dsimp only
    rw [hns2]
  · exact hecs2
  · exact hcm2
  · exact htd2
  · dsimp only
    intro svc hm hn
    rw [htd2]
    exact htdall2 svc hm hn

/- ===================================================================
   Claim C1: idempotence of ensure_router_service.
   =================================================================== -/

/-- Claim C1: from a state with no service and no discovery registration for
    the scenario, two consecutive ensure_router_service calls with identical
    inputs converge to exactly one ECS service named prefix-scenario_id,
    running the latest registered task-definition revision, and exactly one
    Cloud Map registration for that name; the second call resolves the
    discovery create through the already-exists lookup (cmReused) and takes
    the update-in-place path on the existing service (usedUpdatePath)
    instead of creating a second one, and both calls return the same DNS
    name. -/
theorem ensure_idempotent (s0 : WorldState) (svcPfx scenarioId taskFamily : String)
    (image : Option String) (dc : Int) (auto : Bool) (thr : Nat)
    (obs1 obs2 : List GuardObs) (uf1 uf2 : Bool)
    (himg : pyTruthyStr image = true)
    (htd : ¬(s0.tdRev taskFamily = 0))
    (hcm0 : countCm s0 (svcPfx ++ "-" ++ scenarioId) = 0)
    (hecs0 : countEcs s0 (svcPfx ++ "-" ++ scenarioId) = 0) :
    ∃ out1 out2 : EnsureOutcome,
      ensureRouterService s0 svcPfx scenarioId taskFamily image dc auto thr obs1 uf1 =
        .ok out1 ∧
      ensureRouterService out1.state svcPfx scenarioId taskFamily image dc auto thr
        obs2 uf2 = .ok out2 ∧
      out1.usedUpdatePath = false ∧
      out1.cmReused = false ∧
      out2.usedUpdatePath = true ∧
      out2.cmReused = true ∧
      countEcs out2.state (svcPfx ++ "-" ++ scenarioId) = 1 ∧
      countCm out2.state (svcPfx ++ "-" ++ scenarioId) = 1 ∧
      out2.state.tdRev taskFamily = s0.tdRev taskFamily + 2 ∧
      (∀ svc ∈ out2.state.ecsServices, svc.name = (svcPfx ++ "-" ++ scenarioId) →
        svc.taskDefinition = tdArn taskFamily (out2.state.tdRev taskFamily)) ∧
      out2.dns = out1.dns := by
  obtain ⟨out1, heq1, hupd1, hreu1, hdns1, hns1, hecs1, hcm1, htd1, hstat1⟩ :=
    ensure_on_fresh s0 svcPfx scenarioId taskFamily image dc auto thr obs1 uf1
      himg htd hcm0 hecs0
  obtain ⟨out2, heq2, hupd2, hreu2, hdns2, hecs2, hcm2, htd2, htdall2⟩ :=
    ensure_after_active out1.state svcPfx scenarioId taskFamily image dc auto thr
      obs2 uf2 himg (by rw [htd1]; omega) (by rw [hcm1]; omega) (by rw [hecs1]; omega)
      hstat1
  refine ⟨out1, out2, heq1, heq2, hupd1, hreu1, hupd2, hreu2, ?_, ?_, ?_, htdall2, ?_⟩
  · rw [hecs2, hecs1]
  · rw [hcm2, hcm1]
  · rw [htd2, htd1]
  · rw [hdns2, hdns1, hns1]

/-- Witness for C1 on a concrete fresh world with one base revision. -/
theorem ensure_idempotent_witness :
    ∃ out1 out2 : EnsureOutcome,
      ensureRouterService (WorldState.mk "local" [] 0 (fun _ => 1) []) "router"
        "alpha" "otp-router" (some "img:v1") 1 true 3 [] false = .ok out1 ∧
      ensureRouterService out1.state "router" "alpha" "otp-router" (some "img:v1")
        1 true 3 [] false = .ok out2 ∧
      out1.usedUpdatePath = false ∧
      out1.cmReused = false ∧
      out2.usedUpdatePath = true ∧
      out2.cmReused = true ∧
      countEcs out2.state ("router" ++ "-" ++ "alpha") = 1 ∧
      countCm out2.state ("router" ++ "-" ++ "alpha") = 1 ∧
      out2.state.tdRev "otp-router" =
        (WorldState.mk "local" [] 0 (fun _ => 1) []).tdRev "otp-router" + 2 ∧
      (∀ svc ∈ out2.state.ecsServices, svc.name = ("router" ++ "-" ++ "alpha") →
        svc.taskDefinition = tdArn "otp-router" (out2.state.tdRev "otp-router")) ∧
      out2.dns = out1.dns :=
  ensure_idempotent (WorldState.mk "local" [] 0 (fun _ => 1) []) "router" "alpha"
    "otp-router" (some "img:v1") 1 true 3 [] [] false false
    (by decide) (by decide) rfl rfl

/- ===================================================================
   Claim C10: ensure_router_service returns the DNS name regardless of
   the guard outcome.
   =================================================================== -/

/-- Claim C10: whenever ensure_router_service reaches the fail-loop-guard
    phase (image present and a base revision available), it returns the
    discoverable DNS name prefix-scenario_id.namespace for every guard
    observation sequence and even when the guard's own scale-to-zero call
    fails — no error is raised and the returned value is the same as in the
    healthy case, so the caller cannot see from the return value whether the
    rollout was aborted. -/
theorem ensure_returns_dns (s : WorldState) (svcPfx scenarioId taskFamily : String)
    (image : Option String) (dc : Int) (auto : Bool) (thr : Nat)
    (obs : List GuardObs) (uf : Bool)
    (himg : pyTruthyStr image = true)
    (htd : ¬(s.tdRev taskFamily = 0)) :
    ∃ out : EnsureOutcome,
      ensureRouterService s svcPfx scenarioId taskFamily image dc auto thr obs uf =
        .ok out ∧
      out.dns = (svcPfx ++ "-" ++ scenarioId) ++ "." ++ s.nsName := by
  by_cases hcm : s.cmServices.any (fun p => p.1 == (svcPfx ++ "-" ++ scenarioId)) = true
  · apply Exists.intro
    refine ⟨?_, ?_⟩
    · simp only [ensureRouterService]
      rw [if_pos himg, cmEnsure_existing s _ hcm]
      dsimp only
      rw [if_neg htd]
    · dsimp only
      rw [applyGuard_nsName, svcPhase_nsName]
      rfl
  · have hcmf : s.cmServices.any (fun p => p.1 == (svcPfx ++ "-" ++ scenarioId)) =
        false := by
      cases h2 : s.cmServices.any (fun p => p.1 == (svcPfx ++ "-" ++ scenarioId)) with
      | true => exact absurd h2 hcm
      | false => rfl
    apply Exists.intro
    refine ⟨?_, ?_⟩
    · simp only [ensureRouterService]
      rw [if_pos himg, cmEnsure_fresh s _ hcmf]
      dsimp only
      rw [if_neg htd]
    · dsimp only
      rw [applyGuard_nsName, svcPhase_nsName]
      rfl

/-- Witness for C10: a world where the guard scales to zero and the
    scale-down call itself fails still gets the DNS name back. -/
theorem ensure_returns_dns_witness :
    ∃ out : EnsureOutcome,
      ensureRouterService (WorldState.mk "local" [] 0 (fun _ => 1) []) "router"
        "alpha" "otp-router" (some "img:v1") 1 true 3
        [GuardObs.mk 0 [TaskObs.mk (tdArn "otp-router" 2) "STOPPED",
          TaskObs.mk (tdArn "otp-router" 2) "STOPPED",
          TaskObs.mk (tdArn "otp-router" 2) "STOPPED"]] true = .ok out ∧
      out.dns = ("router" ++ "-" ++ "alpha") ++ "." ++
        (WorldState.mk "local" [] 0 (fun _ => 1) []).nsName :=
  ensure_returns_dns (WorldState.mk "local" [] 0 (fun _ => 1) []) "router" "alpha"
    "otp-router" (some "img:v1") 1 true 3
    [GuardObs.mk 0 [TaskObs.mk (tdArn "otp-router" 2) "STOPPED",
      TaskObs.mk (tdArn "otp-router" 2) "STOPPED",
      TaskObs.mk (tdArn "otp-router" 2) "STOPPED"]] true
    (by decide) (by decide)

end MobilysOtp
